import Mathlib

/-!
Verification of the document-discovery engine of `scripts/scraper.py`
(japan-forms).  The Python functions are embedded shallowly: strings are
lists of characters, Python's substring test `t in s`, `startswith`,
`endswith` and `lower` are modelled explicitly, network fetches and the
`urllib` helpers (`urljoin`, `urlparse`) are abstracted into an
environment record, and the mutable crawl session state
(`candidates`, `seen_urls`, `seen_pdfs`) is threaded explicitly.
-/

set_option maxHeartbeats 1000000
set_option maxRecDepth 4000

/-- Python strings, modelled as lists of characters. -/
abbrev Str := List Char

/-- Coerce a Lean string literal into the model. -/
def strL (s : String) : Str := s.toList

/-- Python `s.startswith(pre)` (boolean prefix test). -/
def isPrefixB : Str → Str → Bool
  | [], _ => true
  | _ :: _, [] => false
  | a :: as, b :: bs => a == b && isPrefixB as bs

/-- Python `t in s` (substring containment, `in` on `str`). -/
def substrB (needle : Str) : Str → Bool
  | [] => needle.isEmpty
  | c :: rest => isPrefixB needle (c :: rest) || substrB needle rest

/-- Python `s.startswith(pre)`. -/
def startswithB (pre s : Str) : Bool := isPrefixB pre s

/-- Python `s.endswith(suf)`. -/
def endswithB (suf s : Str) : Bool := isPrefixB suf.reverse s.reverse

/-- Python `s.lower()` (ASCII case folding; the URLs and extensions
compared in the source are ASCII). -/
def lowerStr (s : Str) : Str := s.map Char.toLower

/-- Python `<` on strings: lexicographic comparison by code point. -/
def strLtB : Str → Str → Bool
  | [], [] => false
  | [], _ :: _ => true
  | _ :: _, [] => false
  | a :: as, b :: bs => decide (a < b) || (a == b && strLtB as bs)

/-- Python `s.rstrip("/")`: drop every trailing slash. -/
def rstripSlash (s : Str) : Str := (s.reverse.dropWhile (· == '/')).reverse

/-- Python `s.strip("/")`: drop leading and trailing slashes. -/
def stripSlash (s : Str) : Str := rstripSlash (s.dropWhile (· == '/'))

/-- `SEARCH_TERMS` from scraper.py (residence form search terms). -/
def SEARCH_TERMS : List Str :=
  [strL "住民異動届", strL "転入届", strL "転出届", strL "転居届",
   strL "住民異動届出書", strL "引越し手続", strL "引っ越し手続"]

/-- `FORM_TYPES["nhi"]["search_terms"]` from scraper.py. -/
def NHI_SEARCH_TERMS : List Str :=
  [strL "国民健康保険", strL "国保", strL "異動届出書",
   strL "資格取得届", strL "資格喪失届", strL "被保険者"]

/-- `SUBPAGE_KEYWORDS` from scraper.py. -/
def SUBPAGE_KEYWORDS : List Str :=
  [strL "住民異動", strL "転入", strL "転出", strL "転居", strL "引越",
   strL "引っ越", strL "届出", strL "届け出", strL "ダウンロード",
   strL "申請書", strL "様式", strL "手続き", strL "各種届出",
   strL "住民票", strL "戸籍", strL "暮らし", strL "申請",
   strL "届出書", strL "届出様式", strL "届出用紙"]

/-- `FORM_TYPES["nhi"]["subpage_keywords"]` from scraper.py. -/
def NHI_SUBPAGE_KEYWORDS : List Str :=
  [strL "国民健康保険", strL "国保", strL "健康保険", strL "加入",
   strL "資格", strL "届出", strL "届け出", strL "ダウンロード",
   strL "申請書", strL "様式"]

/-- `FORM_PATH_SEGMENTS` from scraper.py. -/
def FORM_PATH_SEGMENTS : List Str :=
  [strL "todokede", strL "shinseisho", strL "download", strL "kurashi",
   strL "tetsuzuki", strL "hoken", strL "kokuho", strL "koseki",
   strL "jumin", strL "hikkoshi", strL "tensyutsu", strL "tennyu",
   strL "shinsei", strL "yoshiki", strL "dl", strL "kurashi_tetsuzuki",
   strL "g_info", strL "madoguchi", strL "juminhyo",
   strL "hikkoshi-portal", strL "shinseisho_menu"]

/-- `DOWNLOAD_CONTEXT_KEYWORDS` from scraper.py. -/
def DOWNLOAD_CONTEXT_KEYWORDS : List Str :=
  [strL "ダウンロード", strL "申請書", strL "様式", strL "届出書",
   strL "届け出", strL "PDF", strL "書式", strL "用紙"]

/-- `NEGATIVE_KEYWORDS` from scraper.py. -/
def NEGATIVE_KEYWORDS : List Str :=
  [strL "消防", strL "防災", strL "ごみ", strL "環境", strL "動物",
   strL "水道", strL "道路", strL "桜", strL "花見", strL "イベント",
   strL "観光", strL "祭り", strL "スポーツ", strL "図書館", strL "公園",
   strL "選挙", strL "議会", strL "入札", strL "契約", strL "農業",
   strL "林業", strL "漁業", strL "商工", strL "都市計画", strL "委任状",
   strL "封筒", strL "戸籍", strL "改葬", strL "土地", strL "占用",
   strL "排水", strL "産業廃棄物", strL "臨時運行", strL "枝葉"]

/-- `NEGATIVE_PATH_SEGMENTS` from scraper.py. -/
def NEGATIVE_PATH_SEGMENTS : List Str :=
  [strL "shobo", strL "bousai", strL "gomi", strL "kankyo",
   strL "doubutsu", strL "suidou", strL "douro", strL "sakura",
   strL "kanko", strL "matsuri", strL "sports", strL "toshokan",
   strL "koen", strL "senkyo", strL "gikai", strL "nyusatsu",
   strL "keiyaku", strL "nogyo", strL "ringyo", strL "shoko",
   strL "toshikeikaku", strL "fire", strL "disaster", strL "garbage",
   strL "tourism", strL "library", strL "koseki", strL "inkantodoke",
   strL "nochi", strL "kaiso", strL "haiki", strL "rinjiunko"]

/-- Cross-form penalty terms applied when scoring for `residence`
(scraper.py, `score_candidate`). -/
def CROSS_TERMS_RESIDENCE : List Str :=
  [strL "国民健康保険", strL "国保", strL "健康保険料"]

/-- Cross-form penalty terms applied when scoring for `nhi`
(scraper.py, `score_candidate`). -/
def CROSS_TERMS_NHI : List Str :=
  [strL "住民異動届", strL "転入届", strL "転出届", strL "転居届"]

/-- Document extensions filtered out by `find_relevant_subpages`. -/
def DOC_EXTENSIONS : List Str :=
  [strL ".pdf", strL ".xlsx", strL ".xls", strL ".doc", strL ".docx"]

/-- `MUNICIPAL_SEED_PATTERNS["residence"]` from scraper.py. -/
def SEED_PATTERNS_RESIDENCE : List Str :=
  [strL "/kurashi/todokede/", strL "/kurashi/koseki/jumin/",
   strL "/kurashi/koseki/", strL "/kurashi/todokede/hikkoshi/",
   strL "/kurashi/jumin/hikkoshi/", strL "/kurashi/jumin/",
   strL "/kurashi/jumin/todokede/", strL "/kurashi/todokede/koseki/",
   strL "/tetsuzuki/todokede/", strL "/tetsuzuki/koseki/",
   strL "/tetsuzuki/jumin/", strL "/shinseisho/", strL "/yoshiki/",
   strL "/dl/kurashi/", strL "/dl/koseki/", strL "/download/kurashi/",
   strL "/download/koseki/", strL "/kurashi/shinseisho/",
   strL "/smph/kurashi/todokede/", strL "/life/todokede/",
   strL "/life/koseki/", strL "/soshiki/shimin/",
   strL "/kurashi_tetsuzuki/", strL "/hikkoshi-portal/",
   strL "/kurashi/koseki/002/", strL "/kurashi/koseki/001/",
   strL "/shinseisho_menu/", strL "/shinseisho_menu/koseki/"]

/-- `MUNICIPAL_SEED_PATTERNS["nhi"]` from scraper.py. -/
def SEED_PATTERNS_NHI : List Str :=
  [strL "/kurashi/hoken/kokuho/", strL "/kurashi/kokuho/",
   strL "/tetsuzuki/hoken/", strL "/tetsuzuki/kokuho/",
   strL "/kenko/kokuho/", strL "/hoken/kokuho/",
   strL "/shinseisho/kokuho/", strL "/dl/hoken/",
   strL "/kurashi_tetsuzuki/kokuho/"]

/-- The two form types configured in `FORM_TYPES` (scraper.py). -/
inductive FormType where
  | residence
  | nhi
deriving DecidableEq, Repr

/-- `FORM_TYPES[ft]["search_terms"]`. -/
def search_terms_of : FormType → List Str
  | .residence => SEARCH_TERMS
  | .nhi => NHI_SEARCH_TERMS

/-- `FORM_TYPES[ft]["subpage_keywords"]`. -/
def subpage_keywords_of : FormType → List Str
  | .residence => SUBPAGE_KEYWORDS
  | .nhi => NHI_SUBPAGE_KEYWORDS

/-- `MUNICIPAL_SEED_PATTERNS.get(form_type, [])`. -/
def seed_patterns_of : FormType → List Str
  | .residence => SEED_PATTERNS_RESIDENCE
  | .nhi => SEED_PATTERNS_NHI

/-- Cross-form penalty terms selected by `score_candidate`'s
`form_type` argument; `none` models Python `form_type=None` (and any
string other than "residence"/"nhi"), for which no penalty applies. -/
def cross_terms_of : Option FormType → List Str
  | some .residence => CROSS_TERMS_RESIDENCE
  | some .nhi => CROSS_TERMS_NHI
  | none => []

/-- One `<a href=...>` element of a parsed page: its `href` attribute,
its stripped text, and its parent element's stripped text (empty when
the element has no parent). -/
structure Anchor where
  href : Str
  text : Str
  parentText : Str
deriving DecidableEq, Repr

/-- A parsed page is, for this engine, its list of anchors
(`soup.find_all("a", href=True)`). -/
abbrev Page := List Anchor

/-- The dict built by `find_pdf_links`. -/
structure PdfInfo where
  url : Str
  link_text : Str
  context : Str
deriving DecidableEq, Repr

/-- A scored candidate as accumulated by `_collect_pdfs_from_page`
(the pdf dict after `score` and `found_on` have been set). -/
structure Candidate where
  url : Str
  link_text : Str
  context : Str
  score : Int
  found_on : Str
deriving DecidableEq, Repr

/-- An entry of `find_relevant_subpages`' result list. -/
structure Subpage where
  url : Str
  text : Str
deriving DecidableEq, Repr

/-- Abstraction of the `urllib.parse` helpers used by the scraper:
`join base href` is `urljoin(base, href)`, `path u` is
`urlparse(u).path`, `netloc u` is `urlparse(u).netloc`. -/
structure UrlEnv where
  join : Str → Str → Str
  path : Str → Str
  netloc : Str → Str

/-- Abstraction of one crawl session's external world: the `urllib`
helpers, the network (`fetch u` is `fetch_page(u)`: `none` models a
request failure, `some page` a parsed page), the filtered URL list
returned by `parse_sitemap(domain)` and the URL list returned by
`google_site_search(domain, form_type)`.  Within one run of
`crawl_for_forms` every URL is fetched at most once (each fetch is
guarded by `seen_urls`), so a deterministic function is a faithful
model of the network for a single run. -/
structure CrawlEnv where
  url : UrlEnv
  fetch : Str → Option Page
  sitemapUrls : List Str
  googleUrls : List Str

/-- The per-session mutable state threaded through the crawl:
`candidates`, `seen_urls`, `seen_pdfs` from `crawl_for_forms`. -/
structure St where
  candidates : List Candidate
  seen_urls : List Str
  seen_pdfs : List Str
deriving DecidableEq, Repr

/-- The state at the start of `crawl_for_forms`. -/
def initial_state : St := ⟨[], [], []⟩

/-- `find_pdf_links(soup, base_url)` from scraper.py: anchors whose
href ends (case-insensitively) with ".pdf", resolved against the page
URL, with link text and parent-element context. -/
def find_pdf_links (u : UrlEnv) (page : Page) (base_url : Str) : List PdfInfo :=
  page.filterMap fun a =>
    if endswithB (strL ".pdf") (lowerStr a.href) then
      some ⟨u.join base_url a.href, a.text, a.parentText⟩
    else none

/-- The relevance test of `find_relevant_subpages`: the link text
contains a subpage keyword, or the relative URL path (the part of the
link path beyond the parent page's path) contains a form path
segment. -/
def subpage_relevant (u : UrlEnv) (base_url full text : Str)
    (kws : List Str) : Bool :=
  let textMatch := kws.any (fun kw => substrB kw text)
  let basePath := lowerStr (u.path base_url)
  let linkPath := lowerStr (u.path full)
  let relativePath :=
    if startswithB basePath linkPath then linkPath.drop basePath.length
    else linkPath
  let pathMatch := FORM_PATH_SEGMENTS.any (fun seg => substrB seg relativePath)
  textMatch || pathMatch

/-- The loop body of `find_relevant_subpages`, with the `seen` set made
explicit.  Follows the source's filter order: same-domain check,
document-extension check, scheme check, dedup check, then the
keyword/path-segment relevance test. -/
def find_relevant_subpages_from (u : UrlEnv) (base_url domain : Str)
    (kws : List Str) : Page → List Str → List Subpage
  | [], _ => []
  | a :: rest, seen =>
    let full := u.join base_url a.href
    if substrB domain full = false then
      find_relevant_subpages_from u base_url domain kws rest seen
    else if DOC_EXTENSIONS.any (fun ext => endswithB ext (lowerStr full)) then
      find_relevant_subpages_from u base_url domain kws rest seen
    else if startswithB (strL "mailto:") full || startswithB (strL "javascript:") full
        || startswithB (strL "tel:") full then
      find_relevant_subpages_from u base_url domain kws rest seen
    else if full ∈ seen then
      find_relevant_subpages_from u base_url domain kws rest seen
    else if subpage_relevant u base_url full a.text kws then
      ⟨full, a.text⟩ :: find_relevant_subpages_from u base_url domain kws rest (full :: seen)
    else
      find_relevant_subpages_from u base_url domain kws rest seen

/-- `find_relevant_subpages(soup, base_url, domain, subpage_keywords)`
from scraper.py. -/
def find_relevant_subpages (u : UrlEnv) (page : Page) (base_url domain : Str)
    (kws : List Str) : List Subpage :=
  find_relevant_subpages_from u base_url domain kws page []

/-- `score_candidate(pdf_info, search_terms, form_type)` from
scraper.py: additive signals, clamped to [0, 100] at the end.  The
`upath` argument abstracts `urlparse(url).path`. -/
def score_candidate (upath : Str → Str) (pdf : PdfInfo) (terms : List Str)
    (ft : Option FormType) : Int :=
  let combined := pdf.link_text ++ strL " " ++ pdf.context
  let url_path := lowerStr (upath pdf.url)
  let s : Int := terms.foldl (fun acc t => if substrB t combined then acc + 30 else acc) 0
  let s := FORM_PATH_SEGMENTS.foldl (fun acc seg => if substrB seg url_path then acc + 5 else acc) s
  let s := DOWNLOAD_CONTEXT_KEYWORDS.foldl (fun acc kw => if substrB kw combined then acc + 10 else acc) s
  let s := NEGATIVE_KEYWORDS.foldl (fun acc kw => if substrB kw combined then acc - 20 else acc) s
  let s := NEGATIVE_PATH_SEGMENTS.foldl (fun acc seg => if substrB seg url_path then acc - 10 else acc) s
  let s := (cross_terms_of ft).foldl (fun acc t => if substrB t combined then acc - 20 else acc) s
  max 0 (min s 100)

/-- The specification's description of the same quantity, written from
the spec's words (for comparison with `score_candidate`): the raw
additive sum of signals, +30 per matching search term, +5 per matching
positive path segment, +10 per download-context keyword, -20 per
negative keyword, -10 per negative path segment, -20 per
cross-form-type term. -/
def signal_sum (upath : Str → Str) (pdf : PdfInfo) (terms : List Str)
    (ft : Option FormType) : Int :=
  let combined := pdf.link_text ++ strL " " ++ pdf.context
  let url_path := lowerStr (upath pdf.url)
  30 * (terms.countP (fun t => substrB t combined) : Int)
    + 5 * (FORM_PATH_SEGMENTS.countP (fun seg => substrB seg url_path) : Int)
    + 10 * (DOWNLOAD_CONTEXT_KEYWORDS.countP (fun kw => substrB kw combined) : Int)
    - 20 * (NEGATIVE_KEYWORDS.countP (fun kw => substrB kw combined) : Int)
    - 10 * (NEGATIVE_PATH_SEGMENTS.countP (fun seg => substrB seg url_path) : Int)
    - 20 * ((cross_terms_of ft).countP (fun t => substrB t combined) : Int)

/-- `_has_strong_candidates(candidates, threshold)` from scraper.py
(every call site in `crawl_for_forms` uses the default threshold 50). -/
def has_strong_candidates (cands : List Candidate) (threshold : Int) : Bool :=
  cands.any (fun c => decide (threshold ≤ c.score))

/-- `_has_search_term_match(pdf_info, search_terms)` from scraper.py
(applied to a stored candidate dict in `discover_and_scrape`). -/
def has_search_term_match (c : Candidate) (terms : List Str) : Bool :=
  terms.any (fun t => substrB t (c.link_text ++ strL " " ++ c.context))

/-- The candidate selection of `discover_and_scrape` (scraper.py):
`[c for c in candidates if c["score"] >= 30 and
_has_search_term_match(c, search_terms)][:5]`. -/
def select_download_candidates (cands : List Candidate) (terms : List Str) :
    List Candidate :=
  (cands.filter (fun c => decide ((30 : Int) ≤ c.score) && has_search_term_match c terms)).take 5

/-- `generate_seed_urls(domain, form_type)` from scraper.py. -/
def generate_seed_urls (domain : Str) (ft : FormType) : List Str :=
  (seed_patterns_of ft).map (fun pat => rstripSlash domain ++ pat)

/-- The body of `_collect_pdfs_from_page`'s loop for one pdf dict:
skip URLs already in `seen_pdfs`, score the candidate, and append it
(recording its URL as seen) only when the score is positive. -/
def collect_step (u : UrlEnv) (terms : List Str) (ft : Option FormType)
    (page_url : Str) (s : St) (pdf : PdfInfo) : St :=
  if pdf.url ∈ s.seen_pdfs then s
  else
    let sc := score_candidate u.path pdf terms ft
    if 0 < sc then
      { s with
        candidates := s.candidates ++ [⟨pdf.url, pdf.link_text, pdf.context, sc, page_url⟩],
        seen_pdfs := pdf.url :: s.seen_pdfs }
    else s

/-- `_collect_pdfs_from_page(url, soup, search_terms, candidates,
seen_pdfs, form_type)` from scraper.py (the returned `added` counter is
unused by every caller and is omitted). -/
def collect_pdfs_from_page (u : UrlEnv) (page_url : Str) (page : Page)
    (terms : List Str) (ft : Option FormType) (s : St) : St :=
  (find_pdf_links u page page_url).foldl (collect_step u terms ft page_url) s

/-- Body of the Phase 1 / sitemap loop for one URL: skip seen URLs,
mark the URL seen, fetch it, and on success collect its PDFs. -/
def crawl_page_step (env : CrawlEnv) (terms : List Str) (ft : Option FormType)
    (s : St) (url : Str) : St :=
  if url ∈ s.seen_urls then s
  else
    let s' : St := { s with seen_urls := url :: s.seen_urls }
    match env.fetch url with
    | none => s'
    | some page => collect_pdfs_from_page env.url url page terms ft s'

/-- Phase 1 of `crawl_for_forms`: visit `sitemap_urls[:max_pages]`. -/
def phase1 (env : CrawlEnv) (terms : List Str) (ft : FormType)
    (maxPages : Nat) (s : St) : St :=
  (env.sitemapUrls.take maxPages).foldl (crawl_page_step env terms (some ft)) s

/-- The seed-probing loop of Phase 2: every seed URL is marked seen;
responding seeds are remembered (with their page) and their PDFs
collected. -/
def probe_seeds (env : CrawlEnv) (terms : List Str) (ft : FormType) :
    List Str → St → List (Str × Page) → St × List (Str × Page)
  | [], s, acc => (s, acc)
  | url :: rest, s, acc =>
    if url ∈ s.seen_urls then probe_seeds env terms ft rest s acc
    else
      let s' : St := { s with seen_urls := url :: s.seen_urls }
      match env.fetch url with
      | none => probe_seeds env terms ft rest s' acc
      | some page =>
        probe_seeds env terms ft rest
          (collect_pdfs_from_page env.url url page terms (some ft) s')
          (acc ++ [(url, page)])

/-- The focused mini-BFS of Phase 2 (FIFO queue of `(url, depth)`,
budget 30 pages per seed, depth limit 4). -/
def mini_bfs (env : CrawlEnv) (domain : Str) (terms kws : List Str)
    (ft : FormType) : List (Str × Nat) → Nat → St → St
  | [], _, s => s
  | (url, depth) :: rest, pages, s =>
    if 30 ≤ pages then s
    else if url ∈ s.seen_urls ∨ 4 < depth then
      mini_bfs env domain terms kws ft rest pages s
    else
      let s1 : St := { s with seen_urls := url :: s.seen_urls }
      match env.fetch url with
      | none => mini_bfs env domain terms kws ft rest (pages + 1) s1
      | some page =>
        let s2 := collect_pdfs_from_page env.url url page terms (some ft) s1
        let rest' :=
          if depth < 4 then
            rest ++ (find_relevant_subpages env.url page url domain kws).filterMap
              (fun sp => if sp.url ∈ s2.seen_urls then none else some (sp.url, depth + 1))
          else rest
        mini_bfs env domain terms kws ft rest' (pages + 1) s2
termination_by q pages _ => (30 - pages, q.length)
decreasing_by
  · simp_wf
    omega
  · simp_wf
    omega
  · simp_wf
    omega

/-- The per-seed loop of Phase 2: seed the queue with the seed page's
relevant subpage links at depth 1, run the mini-BFS, and stop early as
soon as a strong candidate exists. -/
def run_seed_crawls (env : CrawlEnv) (domain : Str) (terms kws : List Str)
    (ft : FormType) : List (Str × Page) → St → St
  | [], s => s
  | (seed_url, seed_page) :: rest, s =>
    let q := (find_relevant_subpages env.url seed_page seed_url domain kws).filterMap
      (fun sp => if sp.url ∈ s.seen_urls then none else some (sp.url, 1))
    let s' := mini_bfs env domain terms kws ft q 0 s
    if has_strong_candidates s'.candidates 50 then s'
    else run_seed_crawls env domain terms kws ft rest s'

/-- Phase 2 of `crawl_for_forms`: probe the common municipal seed URL
patterns, then run a focused mini-BFS from each responding seed. -/
def phase2 (env : CrawlEnv) (domain : Str) (ft : FormType) (s : St) : St :=
  let terms := search_terms_of ft
  let kws := subpage_keywords_of ft
  let pr := probe_seeds env terms ft (generate_seed_urls domain ft) s []
  run_seed_crawls env domain terms kws ft pr.2 pr.1

/-- The inner subpage loop of Phase 3 (one of the first five relevant
subpage links of a Google result page). -/
def phase3_subpage_step (env : CrawlEnv) (terms : List Str) (ft : FormType)
    (s : St) (sp : Subpage) : St :=
  if sp.url ∈ s.seen_urls then s
  else
    let s' : St := { s with seen_urls := sp.url :: s.seen_urls }
    match env.fetch sp.url with
    | none => s'
    | some page => collect_pdfs_from_page env.url sp.url page terms (some ft) s'

/-- Phase 3's loop body for one Google result URL: fetch and collect
it, then follow up to five of its relevant subpage links. -/
def phase3_step (env : CrawlEnv) (domain : Str) (terms kws : List Str)
    (ft : FormType) (s : St) (url : Str) : St :=
  if url ∈ s.seen_urls then s
  else
    let s' : St := { s with seen_urls := url :: s.seen_urls }
    match env.fetch url with
    | none => s'
    | some page =>
      let s2 := collect_pdfs_from_page env.url url page terms (some ft) s'
      ((find_relevant_subpages env.url page url domain kws).take 5).foldl
        (phase3_subpage_step env terms ft) s2

/-- Phase 3 of `crawl_for_forms`: visit the Google site-search result
URLs and one level of their relevant subpages. -/
def phase3 (env : CrawlEnv) (domain : Str) (ft : FormType) (s : St) : St :=
  env.googleUrls.foldl
    (phase3_step env domain (search_terms_of ft) (subpage_keywords_of ft) ft) s

/-- A pending-queue entry of Phase 4: the tuple
`(negative_priority, depth, url)` pushed onto the heap. -/
structure P4Entry where
  negPri : Int
  depth : Nat
  url : Str
deriving DecidableEq, Repr

/-- Python tuple comparison `(neg_pri, depth, url) <= ...`:
lexicographic on the int, the int, and the string (by code point). -/
def entryLe (a b : P4Entry) : Bool :=
  decide (a.negPri < b.negPri) ||
    (decide (a.negPri = b.negPri) &&
      (decide (a.depth < b.depth) ||
        (decide (a.depth = b.depth) && (strLtB a.url b.url || a.url == b.url))))

/-- Select a minimal element of `e :: l` under `entryLe`, returning it
together with the remaining entries.  `heapq.heappop` returns a minimal
tuple of the heap; entries that compare equal are identical tuples, so
any choice of minimal element models the heap faithfully. -/
def selMin (e : P4Entry) : List P4Entry → P4Entry × List P4Entry
  | [] => (e, [])
  | x :: xs =>
    if entryLe e x then
      let r := selMin e xs
      (r.1, x :: r.2)
    else
      let r := selMin x xs
      (r.1, e :: r.2)

/-- `heapq.heappop(pq)`: `none` on an empty queue, otherwise a minimal
entry and the rest of the queue. -/
def popMin : List P4Entry → Option (P4Entry × List P4Entry)
  | [] => none
  | e :: rest => some (selMin e rest)

/-- The navigation-link relevance computed inline in Phase 4 of
`crawl_for_forms` (`link_pri`): +10 per subpage keyword in the link
text, +5 per form path segment in the URL path, -20 per negative
keyword in the text, -10 per negative path segment in the path. -/
def navigation_priority (upath : Str → Str) (kws : List Str) (sp : Subpage) : Int :=
  let sp_path := lowerStr (upath sp.url)
  let p : Int := kws.foldl (fun acc kw => if substrB kw sp.text then acc + 10 else acc) 0
  let p := FORM_PATH_SEGMENTS.foldl (fun acc seg => if substrB seg sp_path then acc + 5 else acc) p
  let p := NEGATIVE_KEYWORDS.foldl (fun acc kw => if substrB kw sp.text then acc - 20 else acc) p
  NEGATIVE_PATH_SEGMENTS.foldl (fun acc seg => if substrB seg sp_path then acc - 10 else acc) p

/-- Result of the Phase 4 loop, instrumented with the pages actually
visited (`(url, depth)` in visit order — `bfs_visited` is its length)
and every entry ever pushed onto the queue, in push order. -/
structure P4Result where
  state : St
  processed : List (Str × Nat)
  pushed : List P4Entry
deriving DecidableEq, Repr

/-- The best-first loop of Phase 4 (`while pq and bfs_visited <
max_pages`): pop the minimal tuple; skip seen URLs and entries deeper
than 5; otherwise mark seen, count the visit, fetch, collect PDFs, and
for pages at depth < 5 push every unseen relevant subpage link keyed by
its negated navigation relevance; stop early on a strong candidate. -/
def phase4_loop (env : CrawlEnv) (domain : Str) (terms kws : List Str)
    (ft : FormType) (maxPages : Nat) :
    List P4Entry → Nat → St → List (Str × Nat) → List P4Entry → P4Result
  | pq, visited, s, plog, pushlog =>
    if maxPages ≤ visited then ⟨s, plog, pushlog⟩
    else
      match h : popMin pq with
      | none => ⟨s, plog, pushlog⟩
      | some (e, rest) =>
        if e.url ∈ s.seen_urls ∨ 5 < e.depth then
          phase4_loop env domain terms kws ft maxPages rest visited s plog pushlog
        else
          let s1 : St := { s with seen_urls := e.url :: s.seen_urls }
          let plog' := plog ++ [(e.url, e.depth)]
          match env.fetch e.url with
          | none =>
            phase4_loop env domain terms kws ft maxPages rest (visited + 1) s1 plog' pushlog
          | some page =>
            let s2 := collect_pdfs_from_page env.url e.url page terms (some ft) s1
            let news :=
              if e.depth < 5 then
                (find_relevant_subpages env.url page e.url domain kws).filterMap
                  (fun sp =>
                    if sp.url ∈ s2.seen_urls then none
                    else some ⟨-(navigation_priority env.url.path kws sp), e.depth + 1, sp.url⟩)
              else []
            if has_strong_candidates s2.candidates 50 then
              ⟨s2, plog', pushlog ++ news⟩
            else
              phase4_loop env domain terms kws ft maxPages (rest ++ news) (visited + 1) s2
                plog' (pushlog ++ news)
termination_by pq visited _ _ _ => (maxPages - visited, pq.length)
decreasing_by
  all_goals simp_wf
  · have hlen : ∀ (a : P4Entry) (l : List P4Entry), (selMin a l).2.length = l.length := by
      intro a l
      induction l generalizing a with
      | nil => rfl
      | cons x xs ih => simp only [selMin]; split <;> simp [ih]
    rcases pq with _ | ⟨a, l⟩
    · simp [popMin] at h
    · simp only [popMin, Option.some.injEq] at h
      have : rest.length = l.length := by
        have := hlen a l
        rw [show rest = (selMin a l).2 by rw [h]] at *
        omega
      simp [this]
      omega
  · omega
  · omega

/-- Session state after Phase 1 of `crawl_for_forms`. -/
def state_after_phase1 (env : CrawlEnv) (domain : Str) (ft : FormType)
    (maxPages : Nat) : St :=
  phase1 env (search_terms_of ft) ft maxPages initial_state

/-- Guard of Phase 2: it runs only when Phase 1 left no candidate with
score >= 50 (`if not _has_strong_candidates(candidates)`). -/
def phase2_invoked (env : CrawlEnv) (domain : Str) (ft : FormType)
    (maxPages : Nat) : Bool :=
  !(has_strong_candidates (state_after_phase1 env domain ft maxPages).candidates 50)

/-- Session state after Phase 2 (unchanged when Phase 2 is skipped). -/
def state_after_phase2 (env : CrawlEnv) (domain : Str) (ft : FormType)
    (maxPages : Nat) : St :=
  if phase2_invoked env domain ft maxPages then
    phase2 env domain ft (state_after_phase1 env domain ft maxPages)
  else state_after_phase1 env domain ft maxPages

/-- Guard of Phase 3. -/
def phase3_invoked (env : CrawlEnv) (domain : Str) (ft : FormType)
    (maxPages : Nat) : Bool :=
  !(has_strong_candidates (state_after_phase2 env domain ft maxPages).candidates 50)

/-- Session state after Phase 3 (unchanged when Phase 3 is skipped). -/
def state_after_phase3 (env : CrawlEnv) (domain : Str) (ft : FormType)
    (maxPages : Nat) : St :=
  if phase3_invoked env domain ft maxPages then
    phase3 env domain ft (state_after_phase2 env domain ft maxPages)
  else state_after_phase2 env domain ft maxPages

/-- Guard of Phase 4. -/
def phase4_invoked (env : CrawlEnv) (domain : Str) (ft : FormType)
    (maxPages : Nat) : Bool :=
  !(has_strong_candidates (state_after_phase3 env domain ft maxPages).candidates 50)

/-- The Phase 4 run as `crawl_for_forms` would start it: priority queue
seeded with `(-100, 0, domain)`, zero pages visited, starting from the
state Phase 3 left behind. -/
def phase4_result (env : CrawlEnv) (domain : Str) (ft : FormType)
    (maxPages : Nat) : P4Result :=
  phase4_loop env domain (search_terms_of ft) (subpage_keywords_of ft) ft maxPages
    [⟨-100, 0, domain⟩] 0 (state_after_phase3 env domain ft maxPages) [] []

/-- Session state after Phase 4 (unchanged when Phase 4 is skipped). -/
def state_after_phase4 (env : CrawlEnv) (domain : Str) (ft : FormType)
    (maxPages : Nat) : St :=
  if phase4_invoked env domain ft maxPages then
    (phase4_result env domain ft maxPages).state
  else state_after_phase3 env domain ft maxPages

/-- Session state after phase `k` (`k` in 0..4; later indices are
clipped to the final state). -/
def state_after_phase (env : CrawlEnv) (domain : Str) (ft : FormType)
    (maxPages : Nat) : Nat → St
  | 0 => initial_state
  | 1 => state_after_phase1 env domain ft maxPages
  | 2 => state_after_phase2 env domain ft maxPages
  | 3 => state_after_phase3 env domain ft maxPages
  | _ => state_after_phase4 env domain ft maxPages

/-- The phases invoked during a run, in order (Phase 1 always runs;
each later phase runs only under its guard).  This is the
phase-invocation counter the spec describes. -/
def phases_run (env : CrawlEnv) (domain : Str) (ft : FormType)
    (maxPages : Nat) : List Nat :=
  [1] ++ (if phase2_invoked env domain ft maxPages then [2] else [])
      ++ (if phase3_invoked env domain ft maxPages then [3] else [])
      ++ (if phase4_invoked env domain ft maxPages then [4] else [])

/-- Insert a candidate into a list sorted by descending score: `c` goes
before the first element whose score is at most `c`'s.  Used to model
Python's stable `candidates.sort(key=..., reverse=True)`. -/
def insert_desc (c : Candidate) : List Candidate → List Candidate
  | [] => [c]
  | x :: xs => if x.score ≤ c.score then c :: x :: xs else x :: insert_desc c xs

/-- Python's `candidates.sort(key=lambda c: c["score"], reverse=True)`:
a stable descending sort by score (stable sorts agree extensionally, so
insertion sort models Timsort faithfully). -/
def sort_by_score_desc (l : List Candidate) : List Candidate :=
  l.foldr insert_desc []

/-- `crawl_for_forms(domain, form_type, max_pages)` from scraper.py:
the four-phase cascade followed by the final descending sort. -/
def crawl_for_forms (env : CrawlEnv) (domain : Str) (ft : FormType)
    (maxPages : Nat) : List Candidate :=
  sort_by_score_desc (state_after_phase4 env domain ft maxPages).candidates

/-- An anchor of the Google result page (only the href matters to
`google_site_search`). -/
structure GAnchor where
  href : Str
deriving DecidableEq, Repr

/-- Environment of `google_site_search`: `response` is the parsed
result page (`none` when `requests.get`/`raise_for_status` raises —
the only statements in the `try` block that can raise), and
`redirectTarget h` abstracts
`parse_qs(urlparse(h).query).get("q", [None])[0]` for Google's
`/url?q=...` redirect wrappers. -/
structure GoogleEnv where
  response : Option (List GAnchor)
  redirectTarget : Str → Option Str

/-- `site_host = parsed.netloc or parsed.path.strip("/")`. -/
def site_host_of (u : UrlEnv) (domain : Str) : Str :=
  if (u.netloc domain).isEmpty then stripSlash (u.path domain) else u.netloc domain

/-- URL extraction from the Google result anchors: `/url?q=...`
redirects are unwrapped and kept when the target mentions the site
host; plain `http...` links mentioning the site host are kept as-is. -/
def google_extract_urls (genv : GoogleEnv) (site_host : Str) :
    List GAnchor → List Str
  | [] => []
  | a :: rest =>
    if startswithB (strL "/url?") a.href then
      match genv.redirectTarget a.href with
      | some actual =>
        if actual.isEmpty = false ∧ substrB site_host actual then
          actual :: google_extract_urls genv site_host rest
        else google_extract_urls genv site_host rest
      | none => google_extract_urls genv site_host rest
    else if substrB site_host a.href ∧ startswithB (strL "http") a.href then
      a.href :: google_extract_urls genv site_host rest
    else google_extract_urls genv site_host rest

/-- Order-preserving deduplication (`seen`/`unique` loop of
`google_site_search`). -/
def dedup_preserving_order (seen : List Str) : List Str → List Str
  | [] => []
  | u :: rest =>
    if u ∈ seen then dedup_preserving_order seen rest
    else u :: dedup_preserving_order (u :: seen) rest

/-- The body of `google_site_search`'s `try` block: raises (models as
`Except.error`) exactly when the HTTP request fails, otherwise extracts
result URLs, deduplicates them preserving order, and truncates to
`max_results`. -/
def google_site_search_raw (u : UrlEnv) (genv : GoogleEnv) (domain : Str)
    (ft : FormType) (maxResults : Nat) : Except Unit (List Str) :=
  match genv.response with
  | none => .error ()
  | some anchors =>
    .ok ((dedup_preserving_order []
      (google_extract_urls genv (site_host_of u domain) anchors)).take maxResults)

/-- `google_site_search(domain, form_type, max_results)` from
scraper.py: the `try`/`except Exception` wrapper that converts every
failure of the search capability into an empty result list. -/
def google_site_search (u : UrlEnv) (genv : GoogleEnv) (domain : Str)
    (ft : FormType) (maxResults : Nat) : List Str :=
  match google_site_search_raw u genv domain ft maxResults with
  | .ok urls => urls
  | .error _ => []

/-- Identity-like `urllib` abstraction for concrete test environments:
`urljoin` returns the href unchanged and `urlparse(u).path` is `u`. -/
def uId : UrlEnv := ⟨fun _ href => href, fun u => u, fun _ => []⟩

/-- Constant-path `urllib` abstraction (every URL parses to an empty
path), for concrete scoring examples. -/
def uNoPath : UrlEnv := ⟨fun _ href => href, fun _ => [], fun _ => []⟩

/-- Concrete sitemap page for the phase-short-circuit witness: one PDF
link whose text matches two residence search terms (score 60). -/
def pageW2 : Page := [⟨strL "f.pdf", strL "転入届転出届", strL ""⟩]

/-- Environment for the phase-short-circuit witness: the sitemap lists
one page whose PDF scores 60, so Phase 1 ends with a strong candidate. -/
def envW2 : CrawlEnv :=
  ⟨uId, fun u => if u = strL "p" then some pageW2 else none, [strL "p"], []⟩

/-- Page A of the dedup counterexample: the PDF link appears with empty
text and context, so it scores 0 on this page. -/
def pageA3 : Page := [⟨strL "f.pdf", strL "", strL ""⟩]

/-- Page B of the dedup counterexample: the same PDF link appears with
matching text (score 60). -/
def pageB3 : Page := [⟨strL "f.pdf", strL "転入届転出届", strL ""⟩]

/-- Environment for the dedup counterexample: the sitemap lists page A
before page B; both pages link the same PDF URL. -/
def envC3 : CrawlEnv :=
  ⟨uId,
   fun u => if u = strL "A" then some pageA3
            else if u = strL "B" then some pageB3 else none,
   [strL "A", strL "B"], []⟩

/-- Environment for the Phase 4 budget witness: no sitemap, no Google
results, and every fetch fails. -/
def envW4 : CrawlEnv := ⟨uId, fun _ => none, [], []⟩

/-- Home page of the pop-order counterexample: two navigation links
with identical anchor text (hence identical navigation relevance),
inserted in the order `zd`, `ad`. -/
def pageD6 : Page :=
  [⟨strL "zd", strL "届出", strL ""⟩, ⟨strL "ad", strL "届出", strL ""⟩]

/-- Environment for the pop-order counterexample: only the domain root
`d` and the two subpages `zd`/`ad` respond; earlier phases find
nothing, so Phase 4 runs. -/
def envC6 : CrawlEnv :=
  ⟨uId,
   fun u => if u = strL "d" then some pageD6
            else if u = strL "ad" then some ([] : Page)
            else if u = strL "zd" then some ([] : Page) else none,
   [], []⟩

/-- The page fetched in the positive-score witness environment. -/
def pageB9 : Page := [⟨strL "f.pdf", strL "転入届転出届", strL ""⟩]

/-- Environment for the positive-score witness: one sitemap page with a
strongly matching PDF. -/
def envW9 : CrawlEnv :=
  ⟨uId, fun u => if u = strL "B" then some pageB9 else none, [strL "B"], []⟩

/-- Search terms of the negative-term counterexample: four single-letter
terms, each matching, so the unclamped sum starts at 120. -/
def terms5x : List Str := [strL "a", strL "b", strL "c", strL "d"]

/-- Candidate of the negative-term counterexample before the negative
term is added (score clamps 120 down to 100). -/
def pdf5A : PdfInfo := ⟨strL "u", strL "a b c d", strL ""⟩

/-- The same candidate after one occurrence of the negative keyword
消防 is appended to its context (sum 100, score still 100). -/
def pdf5A' : PdfInfo := ⟨strL "u", strL "a b c d", strL "消防"⟩

/-- Candidate whose text already contains 消防 once (score 10). -/
def pdf5B : PdfInfo := ⟨strL "u", strL "a消防", strL ""⟩

/-- The same candidate with a second occurrence of 消防 (score still
10: the boolean substring test does not count occurrences). -/
def pdf5B' : PdfInfo := ⟨strL "u", strL "a消防消防", strL ""⟩

/-- Candidate of the negative-term monotonicity witness. -/
def pdf5W : PdfInfo := ⟨strL "u", strL "転入届", strL ""⟩

/-- The witness candidate with a fresh 消防 occurrence appended. -/
def pdf5W' : PdfInfo := ⟨strL "u", strL "転入届", strL "消防"⟩

/-- A stored candidate matching a search term, for the download
selection witness. -/
def cand8a : Candidate := ⟨strL "u1", strL "転入届", strL "", 60, strL "p"⟩

/-- A stored high-scoring candidate without any search-term match. -/
def cand8b : Candidate := ⟨strL "u2", strL "xx", strL "", 80, strL "p"⟩

/-- Google environment in which the search capability fails
(`requests.get` raises). -/
def genvFail : GoogleEnv := ⟨none, fun _ => none⟩

/-- The nhi seed URLs of domain `d` in the order `seen_urls` holds them
after Phase 2's probe loop (most recently probed first). -/
def seenSeedsC6 : List Str :=
  [strL "d/kurashi_tetsuzuki/kokuho/", strL "d/dl/hoken/",
   strL "d/shinseisho/kokuho/", strL "d/hoken/kokuho/",
   strL "d/kenko/kokuho/", strL "d/tetsuzuki/kokuho/",
   strL "d/tetsuzuki/hoken/", strL "d/kurashi/kokuho/",
   strL "d/kurashi/hoken/kokuho/"]

/-- The session state Phase 3 leaves behind in the pop-order run. -/
def st3C6 : St := ⟨[], seenSeedsC6, []⟩

/-- State after Phase 4 processes the domain root `d`. -/
def stdC6 : St := ⟨[], strL "d" :: seenSeedsC6, []⟩

/-- State after Phase 4 then processes `ad`. -/
def stadC6 : St := ⟨[], strL "ad" :: strL "d" :: seenSeedsC6, []⟩

/-- State after Phase 4 finally processes `zd`. -/
def stzdC6 : St := ⟨[], strL "zd" :: strL "ad" :: strL "d" :: seenSeedsC6, []⟩

/-- The two equal-priority entries pushed from the root page, in push
order (`zd` first). -/
def newsC6 : List P4Entry := [⟨-10, 1, strL "zd"⟩, ⟨-10, 1, strL "ad"⟩]

/-- Concrete page for the subpage-filter witness: one in-domain
navigation link, one PDF link, one `mailto:` link. -/
def page10 : Page :=
  [⟨strL "x", strL "届出", strL ""⟩,
   ⟨strL "x.pdf", strL "届出", strL ""⟩,
   ⟨strL "mailto:x", strL "届出", strL ""⟩]

/-- Session-state extension: a later crawl state keeps every already
accumulated candidate and every recorded PDF URL. -/
def StExtends (s s' : St) : Prop :=
  (∀ c ∈ s.candidates, c ∈ s'.candidates) ∧ (∀ v ∈ s.seen_pdfs, v ∈ s'.seen_pdfs)

/-- The crawl-session invariant: candidate URLs are duplicate-free,
every candidate URL is recorded in `seen_pdfs`, and every accumulated
candidate has a strictly positive score. -/
def StInv (s : St) : Prop :=
  ((s.candidates.map (fun c => c.url)).Nodup) ∧
  (∀ c ∈ s.candidates, c.url ∈ s.seen_pdfs) ∧
  (∀ c ∈ s.candidates, 0 < c.score)

/-- Combined step contract preserved by every crawl operation. -/
def StOk (s s' : St) : Prop := StExtends s s' ∧ (StInv s → StInv s')

/-- A fold that adds a fixed weight for each list element satisfying a
predicate computes the weight times the match count. -/
theorem foldl_add_weight (w : Int) (p : Str → Bool) :
    ∀ (l : List Str) (a : Int),
      l.foldl (fun acc t => if p t then acc + w else acc) a
        = a + w * (l.countP p : Int) := by
  intro l
  induction l with
  | nil => intro a; simp
  | cons x xs ih =>
    intro a
    simp only [List.foldl_cons, List.countP_cons]
    rcases hx : p x with _ | _ <;> simp [hx, ih] <;> push_cast <;> ring

/-- A fold that subtracts a fixed weight for each matching element. -/
theorem foldl_sub_weight (w : Int) (p : Str → Bool) :
    ∀ (l : List Str) (a : Int),
      l.foldl (fun acc t => if p t then acc - w else acc) a
        = a - w * (l.countP p : Int) := by
  intro l
  induction l with
  | nil => intro a; simp
  | cons x xs ih =>
    intro a
    simp only [List.foldl_cons, List.countP_cons]
    rcases hx : p x with _ | _ <;> simp [hx, ih] <;> push_cast <;> ring

/-- `score_candidate` equals the clamped raw signal sum (shared
characterization used below). -/
theorem score_candidate_eq_clamp (upath : Str → Str) (pdf : PdfInfo)
    (terms : List Str) (ft : Option FormType) :
    score_candidate upath pdf terms ft
      = max 0 (min (signal_sum upath pdf terms ft) 100) := by
  unfold score_candidate signal_sum
  simp only [foldl_add_weight, foldl_sub_weight]
  congr 2
  ring

/-- C1: for every PDF candidate input (link text, context, URL path)
and every form type, `score_candidate` returns the additive sum of its
signals (+30 per matching search term, +5 per matching positive path
segment, +10 per download-context keyword, -20 per negative keyword,
-10 per negative path segment, -20 per cross-form-type term) clamped by
`max(0, min(sum, 100))`, hence an integer in [0, 100]. -/
theorem score_candidate_clamped_sum (upath : Str → Str) (pdf : PdfInfo)
    (terms : List Str) (ft : Option FormType) :
    score_candidate upath pdf terms ft
        = max 0 (min (signal_sum upath pdf terms ft) 100)
      ∧ 0 ≤ score_candidate upath pdf terms ft
      ∧ score_candidate upath pdf terms ft ≤ 100 := by
  refine ⟨score_candidate_eq_clamp upath pdf terms ft, ?_, ?_⟩
  · rw [score_candidate_eq_clamp]
    exact le_max_left 0 _
  · rw [score_candidate_eq_clamp]
    rcases le_total (signal_sum upath pdf terms ft) 100 with h | h <;>
      simp [max_le_iff, min_le_iff] <;> omega

/-- Counting lemma: if a predicate flips from false to true on one
element of a duplicate-free list and is unchanged elsewhere, the match
count rises by exactly one. -/
theorem countP_flip_one {l : List Str} {a : Str} (p q : Str → Bool)
    (hnd : l.Nodup) (ha : a ∈ l)
    (hsame : ∀ k ∈ l, k ≠ a → q k = p k)
    (hpa : p a = false) (hqa : q a = true) :
    l.countP q = l.countP p + 1 := by
  induction l with
  | nil => cases ha
  | cons x xs ih =>
    rcases List.nodup_cons.mp hnd with ⟨hx, hxs⟩
    simp only [List.countP_cons]
    rcases List.mem_cons.mp ha with rfl | hmem
    · have heq : xs.countP q = xs.countP p := by
        apply List.countP_congr
        intro k hk
        rw [hsame k (List.mem_cons_of_mem _ hk) (fun h => hx (h ▸ hk))]
      rw [heq, hpa, hqa]
      simp
    · have hxne : x ≠ a := fun h => hx (h ▸ hmem)
      have hqx : q x = p x := hsame x (List.mem_cons_self x xs) hxne
      rw [hqx, ih hxs hmem (fun k hk hkne => hsame k (List.mem_cons_of_mem _ hk) hkne)]
      rcases p x with _ | _ <;> simp

/-- C5 (amended): adding one occurrence of a profile negative term to a
candidate's combined text — when the term was not already present and
the addition changes no other signal (no search-term, download-keyword
or cross-term occurrence appears or disappears) — lowers the raw signal
sum by exactly 20, so the clamped score never increases, and it
strictly decreases unless it is clamped: either at 0 after the change
or at 100 before it.  (The original claim admitted only the 0 clamp and
ignored that a repeated occurrence of an already-present term changes
nothing, because the scorer's substring test is boolean.) -/
theorem negative_term_monotone_amended (upath : Str → Str) (terms : List Str)
    (ft : Option FormType) (p p' : PdfInfo) (neg : Str)
    (hneg : neg ∈ NEGATIVE_KEYWORDS)
    (hurl : p'.url = p.url)
    (hterms : ∀ t ∈ terms,
      substrB t (p'.link_text ++ strL " " ++ p'.context)
        = substrB t (p.link_text ++ strL " " ++ p.context))
    (hdl : ∀ k ∈ DOWNLOAD_CONTEXT_KEYWORDS,
      substrB k (p'.link_text ++ strL " " ++ p'.context)
        = substrB k (p.link_text ++ strL " " ++ p.context))
    (hnk : ∀ k ∈ NEGATIVE_KEYWORDS, k ≠ neg →
      substrB k (p'.link_text ++ strL " " ++ p'.context)
        = substrB k (p.link_text ++ strL " " ++ p.context))
    (hcross : ∀ t ∈ cross_terms_of ft,
      substrB t (p'.link_text ++ strL " " ++ p'.context)
        = substrB t (p.link_text ++ strL " " ++ p.context))
    (hbefore : substrB neg (p.link_text ++ strL " " ++ p.context) = false)
    (hafter : substrB neg (p'.link_text ++ strL " " ++ p'.context) = true) :
    score_candidate upath p' terms ft ≤ score_candidate upath p terms ft ∧
      (score_candidate upath p' terms ft < score_candidate upath p terms ft ∨
        score_candidate upath p' terms ft = 0 ∨
        score_candidate upath p terms ft = 100) := by
  have hnd : NEGATIVE_KEYWORDS.Nodup := by decide
  have hsum : signal_sum upath p' terms ft = signal_sum upath p terms ft - 20 := by
    simp only [signal_sum]
    have h1 : terms.countP (fun t => substrB t (p'.link_text ++ strL " " ++ p'.context))
        = terms.countP (fun t => substrB t (p.link_text ++ strL " " ++ p.context)) := by
      apply List.countP_congr; intro k hk; rw [hterms k hk]
    have h2 : DOWNLOAD_CONTEXT_KEYWORDS.countP
          (fun t => substrB t (p'.link_text ++ strL " " ++ p'.context))
        = DOWNLOAD_CONTEXT_KEYWORDS.countP
          (fun t => substrB t (p.link_text ++ strL " " ++ p.context)) := by
      apply List.countP_congr; intro k hk; rw [hdl k hk]
    have h3 : (cross_terms_of ft).countP
          (fun t => substrB t (p'.link_text ++ strL " " ++ p'.context))
        = (cross_terms_of ft).countP
          (fun t => substrB t (p.link_text ++ strL " " ++ p.context)) := by
      apply List.countP_congr; intro k hk; rw [hcross k hk]
    have h4 : NEGATIVE_KEYWORDS.countP
          (fun t => substrB t (p'.link_text ++ strL " " ++ p'.context))
        = NEGATIVE_KEYWORDS.countP
          (fun t => substrB t (p.link_text ++ strL " " ++ p.context)) + 1 :=
      countP_flip_one _ _ hnd hneg hnk hbefore hafter
    rw [h1, h2, h3, h4, hurl]
    push_cast
    ring
  rw [score_candidate_eq_clamp, score_candidate_eq_clamp, hsum]
  omega

/-- C5 (counterexample to the claim as stated): appending a fresh
occurrence of the negative keyword 消防 to a candidate whose raw sum is
120 leaves the clamped score at 100 (neither a strict decrease nor a
clamp at 0), and adding a second occurrence of an already-present
negative term leaves the score unchanged at 10, because the scorer's
substring test is boolean. -/
theorem negative_term_counterexample :
    score_candidate uId.path pdf5A terms5x none = 100 ∧
    score_candidate uId.path pdf5A' terms5x none = 100 ∧
    substrB (strL "消防") (pdf5A.link_text ++ strL " " ++ pdf5A.context) = false ∧
    substrB (strL "消防") (pdf5A'.link_text ++ strL " " ++ pdf5A'.context) = true ∧
    score_candidate uId.path pdf5B [strL "a"] none = 10 ∧
    score_candidate uId.path pdf5B' [strL "a"] none = 10 := by
  decide

/-- Witness for the amended negative-term monotonicity theorem at a
concrete candidate: appending 消防 drops the score from 30 to 10. -/
theorem negative_term_monotone_witness :
    score_candidate uId.path pdf5W' [strL "転入届"] none
      ≤ score_candidate uId.path pdf5W [strL "転入届"] none :=
  (negative_term_monotone_amended uId.path [strL "転入届"] none pdf5W pdf5W'
    (strL "消防") (by decide) (by decide) (by decide) (by decide) (by decide)
    (by decide) (by decide) (by decide)).1

/-- C8: the downstream selection of `discover_and_scrape` takes at most
5 candidates; every selected candidate comes from the input list, has
score >= 30 and a search-term match; the selection preserves the ranked
order (it is a sublist of the input); and whenever an eligible
candidate is left out, the selection is already full (5 entries) — so
the selection is exactly the first five eligible candidates in ranked
order. -/
theorem download_selection_spec (cands : List Candidate) (terms : List Str) :
    (select_download_candidates cands terms).length ≤ 5 ∧
    (∀ c ∈ select_download_candidates cands terms,
        (30 : Int) ≤ c.score ∧ has_search_term_match c terms = true ∧ c ∈ cands) ∧
    (select_download_candidates cands terms).Sublist cands ∧
    (∀ c ∈ cands, (30 : Int) ≤ c.score → has_search_term_match c terms = true →
        c ∉ select_download_candidates cands terms →
        (select_download_candidates cands terms).length = 5) := by
  refine ⟨?_, ?_, ?_, ?_⟩
  · simp [select_download_candidates, List.length_take]
  · intro c hc
    have hc' := List.mem_of_mem_take hc
    rcases List.mem_filter.mp hc' with ⟨hmem, hp⟩
    rcases (Bool.and_eq_true _ _).mp hp with ⟨h30, hmatch⟩
    exact ⟨of_decide_eq_true h30, hmatch, hmem⟩
  · exact (List.take_sublist _ _).trans (List.filter_sublist _)
  · intro c hmem h30 hmatch hnot
    by_contra hlen
    have hlt : (select_download_candidates cands terms).length < 5 :=
      lt_of_le_of_ne (by simp [select_download_candidates, List.length_take]) hlen
    have hflen : (cands.filter
        (fun c => decide ((30 : Int) ≤ c.score) && has_search_term_match c terms)).length < 5 := by
      have := List.length_take 5 (cands.filter
        (fun c => decide ((30 : Int) ≤ c.score) && has_search_term_match c terms))
      simp only [select_download_candidates] at hlt
      omega
    have htake : (cands.filter
          (fun c => decide ((30 : Int) ≤ c.score) && has_search_term_match c terms)).take 5
        = cands.filter
          (fun c => decide ((30 : Int) ≤ c.score) && has_search_term_match c terms) :=
      List.take_of_length_le (by omega)
    apply hnot
    simp only [select_download_candidates, htake]
    exact List.mem_filter.mpr ⟨hmem, by simp [h30, hmatch]⟩

/-- Witness for the download-selection theorem: at a concrete candidate
list the selected candidate has score >= 30, a search-term match, and
comes from the input. -/
theorem download_selection_witness :
    (30 : Int) ≤ cand8a.score ∧ has_search_term_match cand8a SEARCH_TERMS = true ∧
      cand8a ∈ [cand8a, cand8b] :=
  (download_selection_spec [cand8a, cand8b] SEARCH_TERMS).2.1 cand8a (by decide)

/-- Invariant of the `find_relevant_subpages` loop, for any state of
the `seen` set: every produced entry passed the domain, extension and
scheme filters, is not in `seen`, and the produced URLs are
duplicate-free. -/
theorem find_relevant_subpages_from_spec (u : UrlEnv) (base domain : Str)
    (kws : List Str) (page : Page) :
    ∀ seen : List Str,
      (∀ sp ∈ find_relevant_subpages_from u base domain kws page seen,
          substrB domain sp.url = true ∧
          (∀ ext ∈ DOC_EXTENSIONS, endswithB ext (lowerStr sp.url) = false) ∧
          startswithB (strL "mailto:") sp.url = false ∧
          startswithB (strL "javascript:") sp.url = false ∧
          startswithB (strL "tel:") sp.url = false ∧
          sp.url ∉ seen) ∧
      ((find_relevant_subpages_from u base domain kws page seen).map
          (fun sp => sp.url)).Nodup := by
  induction page with
  | nil =>
    intro seen
    refine ⟨?_, ?_⟩ <;> simp [find_relevant_subpages_from]
  | cons a rest ih =>
    intro seen
    simp only [find_relevant_subpages_from]
    split_ifs with h1 h2 h3 h4 h5
    · exact ih seen
    · exact ih seen
    · exact ih seen
    · exact ih seen
    · have hdom : substrB domain (u.join base a.href) = true := by
        simpa using h1
      have hext : ∀ ext ∈ DOC_EXTENSIONS,
          endswithB ext (lowerStr (u.join base a.href)) = false := by
        intro ext hm
        have h2' : DOC_EXTENSIONS.any
            (fun ext => endswithB ext (lowerStr (u.join base a.href))) = false := by
          simpa using h2
        exact Bool.eq_false_iff.mpr (List.any_eq_false.mp h2' ext hm)
      have hsch : startswithB (strL "mailto:") (u.join base a.href) = false ∧
          startswithB (strL "javascript:") (u.join base a.href) = false ∧
          startswithB (strL "tel:") (u.join base a.href) = false := by
        have h3' := h3
        simp only [Bool.or_eq_true, not_or, Bool.not_eq_true] at h3'
        exact ⟨h3'.1.1, h3'.1.2, h3'.2⟩
      refine ⟨?_, ?_⟩
      · intro sp hsp
        rcases List.mem_cons.mp hsp with rfl | htail
        · exact ⟨hdom, hext, hsch.1, hsch.2.1, hsch.2.2, h4⟩
        · have := (ih (u.join base a.href :: seen)).1 sp htail
          refine ⟨this.1, this.2.1, this.2.2.1, this.2.2.2.1, this.2.2.2.2.1, ?_⟩
          intro hin
          exact this.2.2.2.2.2 (List.mem_cons_of_mem _ hin)
      · simp only [List.map_cons, List.nodup_cons]
        refine ⟨?_, (ih (u.join base a.href :: seen)).2⟩
        intro hmem
        rcases List.mem_map.mp hmem with ⟨sp, hsp, hurl⟩
        have := (ih (u.join base a.href :: seen)).1 sp hsp
        exact this.2.2.2.2.2 (hurl ▸ List.mem_cons_self _ _)
    · exact ih seen

/-- C10: every entry returned by `find_relevant_subpages` has a URL
containing the domain string, not ending (case-insensitively) in .pdf,
.xlsx, .xls, .doc or .docx, not starting with `mailto:`, `javascript:`
or `tel:`, and no URL appears twice in the returned list. -/
theorem find_relevant_subpages_filters (u : UrlEnv) (page : Page)
    (base domain : Str) (kws : List Str) :
    (∀ sp ∈ find_relevant_subpages u page base domain kws,
        substrB domain sp.url = true ∧
        (∀ ext ∈ DOC_EXTENSIONS, endswithB ext (lowerStr sp.url) = false) ∧
        startswithB (strL "mailto:") sp.url = false ∧
        startswithB (strL "javascript:") sp.url = false ∧
        startswithB (strL "tel:") sp.url = false) ∧
    ((find_relevant_subpages u page base domain kws).map
        (fun sp => sp.url)).Nodup := by
  have h := find_relevant_subpages_from_spec u base domain kws page []
  refine ⟨?_, h.2⟩
  intro sp hsp
  have := h.1 sp hsp
  exact ⟨this.1, this.2.1, this.2.2.1, this.2.2.2.1, this.2.2.2.2.1⟩

/-- Witness for the subpage-filter theorem at a concrete page: the one
surviving link contains the domain and is neither a document link nor a
special-scheme link. -/
theorem find_relevant_subpages_filters_witness :
    substrB (strL "x") (Subpage.mk (strL "x") (strL "届出")).url = true ∧
      startswithB (strL "mailto:")
        (Subpage.mk (strL "x") (strL "届出")).url = false :=
  have h := (find_relevant_subpages_filters uId page10 (strL "b") (strL "x")
    SUBPAGE_KEYWORDS).1 ⟨strL "x", strL "届出"⟩ (by decide)
  ⟨h.1, h.2.2.1⟩

/-- C7: `google_site_search` never propagates an error: when the body
of its `try` block raises (models as `Except.error`), it returns the
empty list; when the body succeeds, it returns the body's URL list; in
particular a failed HTTP request yields `[]`, and a well-formed
response always yields `Except.ok`, never an error. -/
theorem google_site_search_never_raises (u : UrlEnv) (genv : GoogleEnv)
    (domain : Str) (ft : FormType) (maxResults : Nat) :
    (∀ e, google_site_search_raw u genv domain ft maxResults = .error e →
        google_site_search u genv domain ft maxResults = []) ∧
    (∀ l, google_site_search_raw u genv domain ft maxResults = .ok l →
        google_site_search u genv domain ft maxResults = l) ∧
    (genv.response = none → google_site_search u genv domain ft maxResults = []) ∧
    (∀ anchors, genv.response = some anchors →
        ∃ l, google_site_search_raw u genv domain ft maxResults = .ok l ∧
          google_site_search u genv domain ft maxResults = l ∧ l.length ≤ maxResults) := by
  refine ⟨?_, ?_, ?_, ?_⟩
  · intro e he
    simp [google_site_search, he]
  · intro l hl
    simp [google_site_search, hl]
  · intro hnone
    simp [google_site_search, google_site_search_raw, hnone]
  · intro anchors hsome
    refine ⟨(dedup_preserving_order []
        (google_extract_urls genv (site_host_of u domain) anchors)).take maxResults,
      ?_, ?_, ?_⟩
    · simp [google_site_search_raw, hsome]
    · simp [google_site_search, google_site_search_raw, hsome]
    · simpa using List.length_take_le maxResults _

/-- Witness for the google-search safety theorem: with a failing search
capability the function returns the empty list. -/
theorem google_site_search_never_raises_witness :
    google_site_search uId genvFail (strL "d") .residence 10 = [] :=
  (google_site_search_never_raises uId genvFail (strL "d") .residence 10).2.2.1 rfl

/-- `StOk` is reflexive. -/
theorem stok_rfl (s : St) : StOk s s :=
  ⟨⟨fun _ h => h, fun _ h => h⟩, fun h => h⟩

/-- `StOk` is transitive. -/
theorem stok_trans {s t v : St} (h1 : StOk s t) (h2 : StOk t v) : StOk s v :=
  ⟨⟨fun c hc => h2.1.1 c (h1.1.1 c hc), fun w hw => h2.1.2 w (h1.1.2 w hw)⟩,
   fun h => h2.2 (h1.2 h)⟩

/-- Updating only `seen_urls` satisfies the step contract. -/
theorem stok_set_seen (s : St) (x : List Str) :
    StOk s { s with seen_urls := x } :=
  ⟨⟨fun _ h => h, fun _ h => h⟩, fun h => h⟩

/-- One `collect_step` satisfies the step contract: it only ever
appends a fresh positive-scoring candidate and records its URL. -/
theorem collect_step_ok (u : UrlEnv) (terms : List Str) (ft : Option FormType)
    (purl : Str) (s : St) (pdf : PdfInfo) :
    StOk s (collect_step u terms ft purl s pdf) := by
  simp only [collect_step]
  split_ifs with h1 h2
  · exact stok_rfl s
  · refine ⟨⟨fun c hc => List.mem_append_left _ hc,
      fun w hw => List.mem_cons_of_mem _ hw⟩, ?_⟩
    intro ⟨hnd, hseen, hpos⟩
    refine ⟨?_, ?_, ?_⟩
    · simp only [List.map_append, List.map_cons, List.map_nil]
      rw [List.nodup_append]
      refine ⟨hnd, List.nodup_singleton _, ?_⟩
      intro v hv hv'
      rcases List.mem_map.mp hv with ⟨c, hc, rfl⟩
      simp only [List.mem_singleton] at hv'
      exact h1 (hv' ▸ hseen c hc)
    · intro c hc
      rcases List.mem_append.mp hc with hc | hc
      · exact List.mem_cons_of_mem _ (hseen c hc)
      · simp only [List.mem_singleton] at hc
        subst hc
        exact List.mem_cons_self _ _
    · intro c hc
      rcases List.mem_append.mp hc with hc | hc
      · exact hpos c hc
      · simp only [List.mem_singleton] at hc
        subst hc
        exact h2
  · exact stok_rfl s

/-- Folding a contract-preserving step over a list preserves the
contract. -/
theorem stok_foldl {α : Type} (f : St → α → St)
    (hf : ∀ s x, StOk s (f s x)) :
    ∀ (l : List α) (s : St), StOk s (l.foldl f s) := by
  intro l
  induction l with
  | nil => intro s; exact stok_rfl s
  | cons x xs ih => intro s; exact stok_trans (hf s x) (ih (f s x))

/-- `collect_pdfs_from_page` satisfies the step contract. -/
theorem collect_pdfs_ok (u : UrlEnv) (purl : Str) (page : Page)
    (terms : List Str) (ft : Option FormType) (s : St) :
    StOk s (collect_pdfs_from_page u purl page terms ft s) :=
  stok_foldl _ (collect_step_ok u terms ft purl) _ s

/-- The sitemap-loop body satisfies the step contract. -/
theorem crawl_page_step_ok (env : CrawlEnv) (terms : List Str)
    (ft : Option FormType) (s : St) (url : Str) :
    StOk s (crawl_page_step env terms ft s url) := by
  unfold crawl_page_step
  split_ifs with h1
  · exact stok_rfl s
  · rcases henv : env.fetch url with _ | page
    · simpa [henv] using stok_set_seen s _
    · simp only [henv]
      exact stok_trans (stok_set_seen s _) (collect_pdfs_ok _ _ _ _ _ _)

/-- Phase 1 satisfies the step contract. -/
theorem phase1_ok (env : CrawlEnv) (terms : List Str) (ft : FormType)
    (maxPages : Nat) (s : St) : StOk s (phase1 env terms ft maxPages s) :=
  stok_foldl _ (crawl_page_step_ok env terms (some ft)) _ s

/-- The seed-probing loop satisfies the step contract. -/
theorem probe_seeds_ok (env : CrawlEnv) (terms : List Str) (ft : FormType) :
    ∀ (seeds : List Str) (s : St) (acc : List (Str × Page)),
      StOk s (probe_seeds env terms ft seeds s acc).1 := by
  intro seeds
  induction seeds with
  | nil => intro s acc; exact stok_rfl s
  | cons url rest ih =>
    intro s acc
    simp only [probe_seeds]
    split_ifs with h1
    · exact ih s acc
    · rcases henv : env.fetch url with _ | page
      · exact stok_trans (stok_set_seen s _) (ih _ acc)
      · exact stok_trans (stok_set_seen s _)
          (stok_trans (collect_pdfs_ok _ _ _ _ _ _) (ih _ _))

/-- The Phase 2 mini-BFS satisfies the step contract. -/
theorem mini_bfs_ok (env : CrawlEnv) (domain : Str) (terms kws : List Str)
    (ft : FormType) :
    ∀ (q : List (Str × Nat)) (pages : Nat) (s : St),
      StOk s (mini_bfs env domain terms kws ft q pages s) := by
  intro q pages s
  induction q, pages, s using mini_bfs.induct env domain terms kws ft with
  | case1 pages s => simp only [mini_bfs]; exact stok_rfl s
  | case2 url depth rest pages s h => simp only [mini_bfs, if_pos h]; exact stok_rfl s
  | case3 url depth rest pages s h hskip ih =>
    simp only [mini_bfs, if_neg h, if_pos hskip]
    exact ih
  | case4 url depth rest pages s h hskip s1 henv ih =>
    simp only [mini_bfs, if_neg h, if_neg hskip, henv]
    exact stok_trans (stok_set_seen s _) ih
  | case5 url depth rest pages s h hskip s1 page henv s2 rest' ih =>
    simp only [mini_bfs, if_neg h, if_neg hskip, henv]
    exact stok_trans (stok_set_seen s _)
      (stok_trans (collect_pdfs_ok _ _ _ _ _ _) ih)

/-- The per-seed crawl loop satisfies the step contract. -/
theorem run_seed_crawls_ok (env : CrawlEnv) (domain : Str)
    (terms kws : List Str) (ft : FormType) :
    ∀ (seeds : List (Str × Page)) (s : St),
      StOk s (run_seed_crawls env domain terms kws ft seeds s) := by
  intro seeds
  induction seeds with
  | nil => intro s; exact stok_rfl s
  | cons sd rest ih =>
    intro s
    rcases sd with ⟨seed_url, seed_page⟩
    simp only [run_seed_crawls]
    split_ifs with h1
    · exact mini_bfs_ok env domain terms kws ft _ _ _
    · exact stok_trans (mini_bfs_ok env domain terms kws ft _ _ _) (ih _)

/-- Phase 2 satisfies the step contract. -/
theorem phase2_ok (env : CrawlEnv) (domain : Str) (ft : FormType) (s : St) :
    StOk s (phase2 env domain ft s) := by
  unfold phase2
  exact stok_trans (probe_seeds_ok env _ ft _ s []) (run_seed_crawls_ok _ _ _ _ _ _ _)

/-- The Phase 3 subpage step satisfies the step contract. -/
theorem phase3_subpage_step_ok (env : CrawlEnv) (terms : List Str)
    (ft : FormType) (s : St) (sp : Subpage) :
    StOk s (phase3_subpage_step env terms ft s sp) := by
  unfold phase3_subpage_step
  split_ifs with h1
  · exact stok_rfl s
  · rcases henv : env.fetch sp.url with _ | page
    · simpa [henv] using stok_set_seen s _
    · simp only [henv]
      exact stok_trans (stok_set_seen s _) (collect_pdfs_ok _ _ _ _ _ _)

/-- The Phase 3 main step satisfies the step contract. -/
theorem phase3_step_ok (env : CrawlEnv) (domain : Str) (terms kws : List Str)
    (ft : FormType) (s : St) (url : Str) :
    StOk s (phase3_step env domain terms kws ft s url) := by
  unfold phase3_step
  split_ifs with h1
  · exact stok_rfl s
  · rcases henv : env.fetch url with _ | page
    · simpa [henv] using stok_set_seen s _
    · simp only [henv]
      exact stok_trans (stok_set_seen s _)
        (stok_trans (collect_pdfs_ok _ _ _ _ _ _)
          (stok_foldl _ (phase3_subpage_step_ok env terms ft) _ _))

/-- Phase 3 satisfies the step contract. -/
theorem phase3_ok (env : CrawlEnv) (domain : Str) (ft : FormType) (s : St) :
    StOk s (phase3 env domain ft s) :=
  stok_foldl _ (phase3_step_ok env domain _ _ ft) _ s

/-- Unfolding: the Phase 4 loop stops when the page budget is spent. -/
theorem phase4_loop_eq_stop (env : CrawlEnv) (domain : Str) (terms kws : List Str)
    (ft : FormType) (maxPages : Nat) (pq : List P4Entry) (visited : Nat) (s : St)
    (plog : List (Str × Nat)) (pushlog : List P4Entry)
    (h : maxPages ≤ visited) :
    phase4_loop env domain terms kws ft maxPages pq visited s plog pushlog
      = ⟨s, plog, pushlog⟩ := by
  rw [phase4_loop.eq_def]
  dsimp only
  rw [if_pos h]

/-- Unfolding: the Phase 4 loop stops when the queue is empty. -/
theorem phase4_loop_eq_none (env : CrawlEnv) (domain : Str) (terms kws : List Str)
    (ft : FormType) (maxPages : Nat) (pq : List P4Entry) (visited : Nat) (s : St)
    (plog : List (Str × Nat)) (pushlog : List P4Entry)
    (h : ¬ maxPages ≤ visited) (hpop : popMin pq = none) :
    phase4_loop env domain terms kws ft maxPages pq visited s plog pushlog
      = ⟨s, plog, pushlog⟩ := by
  rw [phase4_loop.eq_def]
  dsimp only
  rw [if_neg h]
  split
  · rfl
  · next e rest heq => rw [hpop] at heq; cases heq

/-- Unfolding: a popped entry that is already seen or too deep is
skipped. -/
theorem phase4_loop_eq_skip (env : CrawlEnv) (domain : Str) (terms kws : List Str)
    (ft : FormType) (maxPages : Nat) (pq : List P4Entry) (visited : Nat) (s : St)
    (plog : List (Str × Nat)) (pushlog : List P4Entry) (e : P4Entry)
    (rest : List P4Entry)
    (h : ¬ maxPages ≤ visited) (hpop : popMin pq = some (e, rest))
    (hskip : e.url ∈ s.seen_urls ∨ 5 < e.depth) :
    phase4_loop env domain terms kws ft maxPages pq visited s plog pushlog
      = phase4_loop env domain terms kws ft maxPages rest visited s plog pushlog := by
  rw [phase4_loop.eq_def]
  dsimp only
  rw [if_neg h]
  split
  · next heq => rw [hpop] at heq; cases heq
  · next e' rest' heq =>
    rw [hpop] at heq
    injection heq with heq'
    injection heq' with he hrest
    subst he; subst hrest
    rw [if_pos hskip]

/-- Unfolding: a processed entry whose fetch fails advances the loop
with the visit counted. -/
theorem phase4_loop_eq_fail (env : CrawlEnv) (domain : Str) (terms kws : List Str)
    (ft : FormType) (maxPages : Nat) (pq : List P4Entry) (visited : Nat) (s : St)
    (plog : List (Str × Nat)) (pushlog : List P4Entry) (e : P4Entry)
    (rest : List P4Entry)
    (h : ¬ maxPages ≤ visited) (hpop : popMin pq = some (e, rest))
    (hskip : ¬ (e.url ∈ s.seen_urls ∨ 5 < e.depth))
    (henv : env.fetch e.url = none) :
    phase4_loop env domain terms kws ft maxPages pq visited s plog pushlog
      = phase4_loop env domain terms kws ft maxPages rest (visited + 1)
          { s with seen_urls := e.url :: s.seen_urls }
          (plog ++ [(e.url, e.depth)]) pushlog := by
  rw [phase4_loop.eq_def]
  dsimp only
  rw [if_neg h]
  split
  · next heq => rw [hpop] at heq; cases heq
  · next e' rest' heq =>
    rw [hpop] at heq
    injection heq with heq'
    injection heq' with he hrest
    subst he; subst hrest
    rw [if_neg hskip]
    simp only [henv]

/-- Unfolding: a processed entry whose fetch succeeds collects the
page's PDFs, pushes the page's unseen relevant links (below the depth
limit), and either stops on a strong candidate or continues. -/
theorem phase4_loop_eq_page (env : CrawlEnv) (domain : Str) (terms kws : List Str)
    (ft : FormType) (maxPages : Nat) (pq : List P4Entry) (visited : Nat) (s : St)
    (plog : List (Str × Nat)) (pushlog : List P4Entry) (e : P4Entry)
    (rest : List P4Entry) (page : Page) (s2 : St) (news : List P4Entry)
    (h : ¬ maxPages ≤ visited) (hpop : popMin pq = some (e, rest))
    (hskip : ¬ (e.url ∈ s.seen_urls ∨ 5 < e.depth))
    (henv : env.fetch e.url = some page)
    (hs2 : collect_pdfs_from_page env.url e.url page terms (some ft)
      { s with seen_urls := e.url :: s.seen_urls } = s2)
    (hnews : (if e.depth < 5 then
        (find_relevant_subpages env.url page e.url domain kws).filterMap
          (fun sp =>
            if sp.url ∈ s2.seen_urls then none
            else some ⟨-(navigation_priority env.url.path kws sp), e.depth + 1, sp.url⟩)
      else []) = news) :
    phase4_loop env domain terms kws ft maxPages pq visited s plog pushlog
      = if has_strong_candidates s2.candidates 50 then
          ⟨s2, plog ++ [(e.url, e.depth)], pushlog ++ news⟩
        else
          phase4_loop env domain terms kws ft maxPages (rest ++ news) (visited + 1)
            s2 (plog ++ [(e.url, e.depth)]) (pushlog ++ news) := by
  rw [phase4_loop.eq_def]
  dsimp only
  rw [if_neg h]
  split
  · next heq => rw [hpop] at heq; cases heq
  · next e' rest' heq =>
    rw [hpop] at heq
    injection heq with heq'
    injection heq' with he hrest
    subst he; subst hrest
    rw [if_neg hskip]
    simp only [henv, hs2, hnews]

/-- The Phase 4 loop's final state satisfies the step contract. -/
theorem phase4_loop_ok (env : CrawlEnv) (domain : Str) (terms kws : List Str)
    (ft : FormType) (maxPages : Nat) :
    ∀ (pq : List P4Entry) (visited : Nat) (s : St)
      (plog : List (Str × Nat)) (pushlog : List P4Entry),
      StOk s (phase4_loop env domain terms kws ft maxPages pq visited s plog pushlog).state := by
  intro pq visited s plog pushlog
  induction pq, visited, s, plog, pushlog
    using phase4_loop.induct env domain terms kws ft maxPages with
  | case1 pq visited s plog pushlog h =>
    rw [phase4_loop_eq_stop _ _ _ _ _ _ _ _ _ _ _ h]
    exact stok_rfl s
  | case2 pq visited s plog pushlog h hpop =>
    rw [phase4_loop_eq_none _ _ _ _ _ _ _ _ _ _ _ h hpop]
    exact stok_rfl s
  | case3 pq visited s plog pushlog h e rest hpop hskip ih =>
    rw [phase4_loop_eq_skip _ _ _ _ _ _ _ _ _ _ _ _ _ h hpop hskip]
    exact ih
  | case4 pq visited s plog pushlog h e rest hpop hskip s1 plog' henv ih =>
    rw [phase4_loop_eq_fail _ _ _ _ _ _ _ _ _ _ _ _ _ h hpop hskip henv]
    exact stok_trans (stok_set_seen s _) ih
  | case5 pq visited s plog pushlog h e rest hpop hskip s1 page henv s2 hstrong =>
    rw [phase4_loop_eq_page _ _ _ _ _ _ _ _ _ _ _ _ _ _ _ _ h hpop hskip henv rfl rfl,
      if_pos hstrong]
    exact stok_trans (stok_set_seen s _) (collect_pdfs_ok _ _ _ _ _ _)
  | case6 pq visited s plog pushlog h e rest hpop hskip s1 plog' page henv s2 news hstrong ih =>
    rw [phase4_loop_eq_page _ _ _ _ _ _ _ _ _ _ _ _ _ _ _ _ h hpop hskip henv rfl rfl,
      if_neg hstrong]
    exact stok_trans (stok_set_seen s _)
      (stok_trans (collect_pdfs_ok _ _ _ _ _ _) ih)

/-- Each phase transition of the cascade satisfies the step contract. -/
theorem sap_step (env : CrawlEnv) (domain : Str) (ft : FormType)
    (maxPages : Nat) (k : Nat) :
    StOk (state_after_phase env domain ft maxPages k)
      (state_after_phase env domain ft maxPages (k + 1)) := by
  match k with
  | 0 =>
    exact phase1_ok env _ ft maxPages initial_state
  | 1 =>
    simp only [state_after_phase, state_after_phase2]
    split_ifs with h
    · exact phase2_ok env domain ft _
    · exact stok_rfl _
  | 2 =>
    simp only [state_after_phase, state_after_phase3]
    split_ifs with h
    · exact phase3_ok env domain ft _
    · exact stok_rfl _
  | 3 =>
    simp only [state_after_phase, state_after_phase4, phase4_result]
    split_ifs with h
    · exact phase4_loop_ok env domain _ _ ft maxPages _ _ _ _ _
    · exact stok_rfl _
  | (n + 4) =>
    exact stok_rfl _

/-- The cascade's states form a monotone chain under the step
contract. -/
theorem sap_mono (env : CrawlEnv) (domain : Str) (ft : FormType)
    (maxPages : Nat) :
    ∀ k m : Nat, k ≤ m →
      StOk (state_after_phase env domain ft maxPages k)
        (state_after_phase env domain ft maxPages m) := by
  intro k m hkm
  induction m with
  | zero =>
    have : k = 0 := Nat.le_zero.mp hkm
    subst this
    exact stok_rfl _
  | succ n ih =>
    rcases Nat.lt_or_ge k (n + 1) with hlt | hge
    · exact stok_trans (ih (Nat.lt_succ_iff.mp hlt)) (sap_step env domain ft maxPages n)
    · have : k = n + 1 := Nat.le_antisymm hkm hge
      subst this
      exact stok_rfl _

/-- `has_strong_candidates` is monotone along the step contract. -/
theorem has_strong_mono {s s' : St} (h : StOk s s')
    (hs : has_strong_candidates s.candidates 50 = true) :
    has_strong_candidates s'.candidates 50 = true := by
  rcases List.any_eq_true.mp hs with ⟨c, hc, hsc⟩
  exact List.any_eq_true.mpr ⟨c, h.1.1 c hc, hsc⟩

/-- Membership characterization of the invocation list `phases_run`. -/
theorem mem_phases_run (env : CrawlEnv) (domain : Str) (ft : FormType)
    (maxPages : Nat) (j : Nat) :
    j ∈ phases_run env domain ft maxPages ↔
      j = 1 ∨ (j = 2 ∧ phase2_invoked env domain ft maxPages = true)
        ∨ (j = 3 ∧ phase3_invoked env domain ft maxPages = true)
        ∨ (j = 4 ∧ phase4_invoked env domain ft maxPages = true) := by
  unfold phases_run
  rcases h2 : phase2_invoked env domain ft maxPages with _ | _ <;>
    rcases h3 : phase3_invoked env domain ft maxPages with _ | _ <;>
      rcases h4 : phase4_invoked env domain ft maxPages with _ | _ <;>
        simp [h2, h3, h4]

/-- C2: in `crawl_for_forms`, if phase `k` ends with a candidate at or
above the strong-score threshold (the fixed threshold 50 used at every
phase guard), then no later phase is invoked; and a phase is invoked
only when every earlier phase ended without a strong candidate. -/
theorem phase_cascade_short_circuit (env : CrawlEnv) (domain : Str)
    (ft : FormType) (maxPages : Nat) :
    (∀ k j, 1 ≤ k → k < j → j ≤ 4 →
      has_strong_candidates
        (state_after_phase env domain ft maxPages k).candidates 50 = true →
      j ∉ phases_run env domain ft maxPages) ∧
    (∀ j, j ∈ phases_run env domain ft maxPages → ∀ k, 1 ≤ k → k < j →
      has_strong_candidates
        (state_after_phase env domain ft maxPages k).candidates 50 = false) := by
  constructor
  · intro k j hk1 hkj hj4 hstrong hmem
    rcases (mem_phases_run env domain ft maxPages j).mp hmem with
      rfl | ⟨rfl, hinv⟩ | ⟨rfl, hinv⟩ | ⟨rfl, hinv⟩
    · omega
    · have hk : k = 1 := by omega
      subst hk
      have := has_strong_mono (sap_mono env domain ft maxPages 1 1 le_rfl) hstrong
      unfold phase2_invoked at hinv
      rw [show state_after_phase env domain ft maxPages 1
          = state_after_phase1 env domain ft maxPages from rfl] at this
      simp [this] at hinv
    · have hk2 : k ≤ 2 := by omega
      have := has_strong_mono (sap_mono env domain ft maxPages k 2 hk2) hstrong
      unfold phase3_invoked at hinv
      rw [show state_after_phase env domain ft maxPages 2
          = state_after_phase2 env domain ft maxPages from rfl] at this
      simp [this] at hinv
    · have hk3 : k ≤ 3 := by omega
      have := has_strong_mono (sap_mono env domain ft maxPages k 3 hk3) hstrong
      unfold phase4_invoked at hinv
      rw [show state_after_phase env domain ft maxPages 3
          = state_after_phase3 env domain ft maxPages from rfl] at this
      simp [this] at hinv
  · intro j hmem k hk1 hkj
    by_contra hne
    have hstrong : has_strong_candidates
        (state_after_phase env domain ft maxPages k).candidates 50 = true := by
      rcases h : has_strong_candidates
          (state_after_phase env domain ft maxPages k).candidates 50 with _ | _
      · exact absurd h hne
      · rfl
    rcases (mem_phases_run env domain ft maxPages j).mp hmem with
      rfl | ⟨rfl, hinv⟩ | ⟨rfl, hinv⟩ | ⟨rfl, hinv⟩
    · omega
    · have hk : k = 1 := by omega
      subst hk
      have := has_strong_mono (sap_mono env domain ft maxPages 1 1 le_rfl) hstrong
      unfold phase2_invoked at hinv
      rw [show state_after_phase env domain ft maxPages 1
          = state_after_phase1 env domain ft maxPages from rfl] at this
      simp [this] at hinv
    · have hk2 : k ≤ 2 := by omega
      have := has_strong_mono (sap_mono env domain ft maxPages k 2 hk2) hstrong
      unfold phase3_invoked at hinv
      rw [show state_after_phase env domain ft maxPages 2
          = state_after_phase2 env domain ft maxPages from rfl] at this
      simp [this] at hinv
    · have hk3 : k ≤ 3 := by omega
      have := has_strong_mono (sap_mono env domain ft maxPages k 3 hk3) hstrong
      unfold phase4_invoked at hinv
      rw [show state_after_phase env domain ft maxPages 3
          = state_after_phase3 env domain ft maxPages from rfl] at this
      simp [this] at hinv

/-- Witness for the short-circuit theorem: in a concrete environment
whose sitemap page already yields a score-60 candidate, Phase 1 ends
strong and Phase 2 is never invoked. -/
theorem phase_cascade_short_circuit_witness :
    has_strong_candidates
        (state_after_phase envW2 (strL "x") .residence 5 1).candidates 50 = true ∧
      2 ∉ phases_run envW2 (strL "x") .residence 5 :=
  have h : has_strong_candidates
      (state_after_phase envW2 (strL "x") .residence 5 1).candidates 50 = true := by
    decide
  ⟨h, (phase_cascade_short_circuit envW2 (strL "x") .residence 5).1 1 2
    (by decide) (by decide) (by decide) h⟩

/-- `insert_desc` permutes the element into the list. -/
theorem insert_desc_perm (c : Candidate) :
    ∀ l : List Candidate, (insert_desc c l).Perm (c :: l) := by
  intro l
  induction l with
  | nil => simp [insert_desc]
  | cons x xs ih =>
    simp only [insert_desc]
    split_ifs with h
    · exact List.Perm.refl _
    · exact (List.Perm.cons x ih).trans (List.Perm.swap c x xs)

/-- The final descending sort is a permutation of its input. -/
theorem sort_by_score_desc_perm (l : List Candidate) :
    (sort_by_score_desc l).Perm l := by
  induction l with
  | nil => simp [sort_by_score_desc]
  | cons x xs ih =>
    simp only [sort_by_score_desc, List.foldr_cons]
    exact (insert_desc_perm x _).trans (List.Perm.cons x ih)

/-- The crawl-session invariant holds at the end of the cascade. -/
theorem stinv_final (env : CrawlEnv) (domain : Str) (ft : FormType)
    (maxPages : Nat) :
    StInv (state_after_phase env domain ft maxPages 4) := by
  have hinit : StInv initial_state := by
    refine ⟨List.nodup_nil, ?_, ?_⟩ <;> intro c hc <;> cases hc
  exact (sap_mono env domain ft maxPages 0 4 (by omega)).2 hinit

/-- C3 (amended): every document URL appears at most once in the list
returned by `crawl_for_forms`, and a candidate entry, once accumulated,
is preserved unchanged by every later page collection — so the entry
retained for a URL carries the score and `found_on` of the first
discovery that scored positively.  (The claim as stated fails when the
first discovery of a URL scores 0: that discovery is not recorded, and
a later positive discovery on another page supplies the entry.) -/
theorem dedup_first_positive_discovery :
    (∀ (env : CrawlEnv) (domain : Str) (ft : FormType) (maxPages : Nat),
      ((crawl_for_forms env domain ft maxPages).map (fun c => c.url)).Nodup) ∧
    (∀ (u : UrlEnv) (purl : Str) (page : Page) (terms : List Str)
        (oft : Option FormType) (s : St) (c : Candidate),
      c ∈ s.candidates →
        c ∈ (collect_pdfs_from_page u purl page terms oft s).candidates) := by
  constructor
  · intro env domain ft maxPages
    have hinv := stinv_final env domain ft maxPages
    have hperm := sort_by_score_desc_perm
      (state_after_phase env domain ft maxPages 4).candidates
    have hmap := hperm.map (fun c => c.url)
    exact (List.Perm.nodup_iff hmap).mpr hinv.1
  · intro u purl page terms oft s c hc
    exact (collect_pdfs_ok u purl page terms oft s).1.1 c hc

/-- C3 (counterexample to the claim as stated): in a concrete crawl the
same PDF URL is discovered first on page A (where its link has no
matching text, score 0) and then on page B (score 60); the returned
candidate records `found_on = B` and score 60, not the score and page
of its first discovery. -/
theorem dedup_first_discovery_counterexample :
    envC3.sitemapUrls = [strL "A", strL "B"] ∧
    (find_pdf_links uId pageA3 (strL "A")).map (fun p => p.url) = [strL "f.pdf"] ∧
    (find_pdf_links uId pageB3 (strL "B")).map (fun p => p.url) = [strL "f.pdf"] ∧
    crawl_for_forms envC3 (strL "x") .residence 5
      = [⟨strL "f.pdf", strL "転入届転出届", strL "", 60, strL "B"⟩] := by
  refine ⟨rfl, by decide, by decide, by decide⟩

/-- Witness for the dedup theorem: a stored candidate survives a later
page collection unchanged. -/
theorem dedup_first_positive_discovery_witness :
    cand8a ∈ (collect_pdfs_from_page uId (strL "p") [] SEARCH_TERMS
      (some .residence) ⟨[cand8a], [], [strL "u1"]⟩).candidates :=
  dedup_first_positive_discovery.2 uId (strL "p") [] SEARCH_TERMS
    (some .residence) ⟨[cand8a], [], [strL "u1"]⟩ cand8a (by decide)

/-- C9: every candidate returned by `crawl_for_forms` has a strictly
positive score, and a PDF whose computed score is 0 changes neither the
candidate list nor the seen-PDFs set in `_collect_pdfs_from_page`'s
step — so a 0-scoring link may be re-scored when encountered again. -/
theorem candidates_positive_score :
    (∀ (env : CrawlEnv) (domain : Str) (ft : FormType) (maxPages : Nat)
        (c : Candidate), c ∈ crawl_for_forms env domain ft maxPages →
      0 < c.score) ∧
    (∀ (u : UrlEnv) (terms : List Str) (oft : Option FormType) (purl : Str)
        (s : St) (pdf : PdfInfo),
      score_candidate u.path pdf terms oft = 0 →
        (collect_step u terms oft purl s pdf).candidates = s.candidates ∧
        (collect_step u terms oft purl s pdf).seen_pdfs = s.seen_pdfs) := by
  constructor
  · intro env domain ft maxPages c hc
    have hinv := stinv_final env domain ft maxPages
    have hperm := sort_by_score_desc_perm
      (state_after_phase env domain ft maxPages 4).candidates
    exact hinv.2.2 c (hperm.mem_iff.mp hc)
  · intro u terms oft purl s pdf hzero
    simp only [collect_step]
    split_ifs with h1 h2
    · exact ⟨rfl, rfl⟩
    · rw [hzero] at h2
      omega
    · exact ⟨rfl, rfl⟩

/-- Witness for the positive-score theorem: the concrete crawl's single
candidate has positive score, and a concrete 0-scoring PDF leaves the
collection state unchanged. -/
theorem candidates_positive_score_witness :
    (0 : Int) < (Candidate.mk (strL "f.pdf") (strL "転入届転出届") (strL "")
        60 (strL "B")).score ∧
    (collect_step uId SEARCH_TERMS (some .residence) (strL "p") initial_state
        ⟨strL "z.pdf", strL "", strL ""⟩).candidates = initial_state.candidates :=
  ⟨candidates_positive_score.1 envW9 (strL "x") .residence 5 _ (by decide),
   (candidates_positive_score.2 uId SEARCH_TERMS (some .residence) (strL "p")
     initial_state ⟨strL "z.pdf", strL "", strL ""⟩ (by decide)).1⟩

/-- Bounds invariant of the Phase 4 loop: the visit log grows by at
most the remaining page budget, newly logged visits are at depth <= 5,
and newly pushed entries are at depth <= 5. -/
theorem phase4_loop_bounds (env : CrawlEnv) (domain : Str) (terms kws : List Str)
    (ft : FormType) (maxPages : Nat) :
    ∀ (pq : List P4Entry) (visited : Nat) (s : St)
      (plog : List (Str × Nat)) (pushlog : List P4Entry),
      (phase4_loop env domain terms kws ft maxPages pq visited s plog pushlog).processed.length
          ≤ plog.length + (maxPages - visited) ∧
      (∀ pr ∈ (phase4_loop env domain terms kws ft maxPages pq visited s plog pushlog).processed,
          pr ∈ plog ∨ pr.2 ≤ 5) ∧
      (∀ e ∈ (phase4_loop env domain terms kws ft maxPages pq visited s plog pushlog).pushed,
          e ∈ pushlog ∨ e.depth ≤ 5) := by
  intro pq visited s plog pushlog
  induction pq, visited, s, plog, pushlog
    using phase4_loop.induct env domain terms kws ft maxPages with
  | case1 pq visited s plog pushlog h =>
    rw [phase4_loop_eq_stop _ _ _ _ _ _ _ _ _ _ _ h]
    exact ⟨Nat.le_add_right _ _, fun pr hpr => Or.inl hpr, fun x hx => Or.inl hx⟩
  | case2 pq visited s plog pushlog h hpop =>
    rw [phase4_loop_eq_none _ _ _ _ _ _ _ _ _ _ _ h hpop]
    exact ⟨Nat.le_add_right _ _, fun pr hpr => Or.inl hpr, fun x hx => Or.inl hx⟩
  | case3 pq visited s plog pushlog h e rest hpop hskip ih =>
    rw [phase4_loop_eq_skip _ _ _ _ _ _ _ _ _ _ _ _ _ h hpop hskip]
    exact ih
  | case4 pq visited s plog pushlog h e rest hpop hskip s1 plog' henv ih =>
    rw [phase4_loop_eq_fail _ _ _ _ _ _ _ _ _ _ _ _ _ h hpop hskip henv]
    unfold_let s1 plog' at ih
    have hd : e.depth ≤ 5 := by
      rcases Nat.lt_or_ge 5 e.depth with hlt | hge
      · exact absurd (Or.inr hlt) hskip
      · exact hge
    obtain ⟨ih1, ih2, ih3⟩ := ih
    refine ⟨?_, ?_, ih3⟩
    · simp only [List.length_append, List.length_cons, List.length_nil] at ih1
      omega
    · intro pr hpr
      rcases ih2 pr hpr with hin | hle
      · rcases List.mem_append.mp hin with hin | hin
        · exact Or.inl hin
        · simp only [List.mem_singleton] at hin
          subst hin
          exact Or.inr hd
      · exact Or.inr hle
  | case5 pq visited s plog pushlog h e rest hpop hskip s1 page henv s2 hstrong =>
    rw [phase4_loop_eq_page _ _ _ _ _ _ _ _ _ _ _ _ _ _ _ _ h hpop hskip henv rfl rfl,
      if_pos hstrong]
    have hd : e.depth ≤ 5 := by
      rcases Nat.lt_or_ge 5 e.depth with hlt | hge
      · exact absurd (Or.inr hlt) hskip
      · exact hge
    refine ⟨?_, ?_, ?_⟩
    · show (plog ++ [(e.url, e.depth)]).length ≤ plog.length + (maxPages - visited)
      simp only [List.length_append, List.length_cons, List.length_nil]
      omega
    · intro pr hpr
      rcases List.mem_append.mp hpr with hin | hin
      · exact Or.inl hin
      · simp only [List.mem_singleton] at hin
        subst hin
        exact Or.inr hd
    · intro x hx
      rcases List.mem_append.mp hx with hin | hin
      · exact Or.inl hin
      · right
        split_ifs at hin with hdep
        · rcases List.mem_filterMap.mp hin with ⟨sp, hsp, hsome⟩
          split_ifs at hsome with hseen
          cases hsome
          exact hdep
        · cases hin
  | case6 pq visited s plog pushlog h e rest hpop hskip s1 plog' page henv s2 news hstrong ih =>
    rw [phase4_loop_eq_page _ _ _ _ _ _ _ _ _ _ _ _ _ _ _ _ h hpop hskip henv rfl rfl,
      if_neg hstrong]
    unfold_let news s2 s1 plog' at ih
    simp only [dite_eq_ite] at ih
    have hd : e.depth ≤ 5 := by
      rcases Nat.lt_or_ge 5 e.depth with hlt | hge
      · exact absurd (Or.inr hlt) hskip
      · exact hge
    obtain ⟨ih1, ih2, ih3⟩ := ih
    refine ⟨?_, ?_, ?_⟩
    · simp only [List.length_append, List.length_cons, List.length_nil] at ih1
      omega
    · intro pr hpr
      rcases ih2 pr hpr with hin | hle
      · rcases List.mem_append.mp hin with hin | hin
        · exact Or.inl hin
        · simp only [List.mem_singleton] at hin
          subst hin
          exact Or.inr hd
      · exact Or.inr hle
    · intro x hx
      rcases ih3 x hx with hin | hle
      · rcases List.mem_append.mp hin with hin | hin
        · exact Or.inl hin
        · right
          split_ifs at hin with hdep
          · rcases List.mem_filterMap.mp hin with ⟨sp, hsp, hsome⟩
            split_ifs at hsome with hseen
            cases hsome
            exact hdep
          · cases hin
      · exact Or.inr hle

/-- C4: the best-first Phase 4 of `crawl_for_forms` visits at most
`max_pages` pages in total, never processes a popped entry at depth
greater than 5 (deeper entries are skipped), and never pushes an entry
at depth greater than 5 (navigation links are pushed only from pages at
depth strictly below 5, at depth one more than their page). -/
theorem phase4_budget_depth_bound (env : CrawlEnv) (domain : Str)
    (ft : FormType) (maxPages : Nat) :
    (phase4_result env domain ft maxPages).processed.length ≤ maxPages ∧
    (∀ pr ∈ (phase4_result env domain ft maxPages).processed, pr.2 ≤ 5) ∧
    (∀ e ∈ (phase4_result env domain ft maxPages).pushed, e.depth ≤ 5) := by
  have h := phase4_loop_bounds env domain (search_terms_of ft)
    (subpage_keywords_of ft) ft maxPages [⟨-100, 0, domain⟩] 0
    (state_after_phase3 env domain ft maxPages) [] []
  unfold phase4_result
  refine ⟨?_, ?_, ?_⟩
  · have h1 := h.1
    simp only [List.length_nil] at h1
    omega
  · intro pr hpr
    rcases h.2.1 pr hpr with hin | hle
    · cases hin
    · exact hle
  · intro x hx
    rcases h.2.2 x hx with hin | hle
    · cases hin
    · exact hle

/-- Witness for the Phase 4 bounds theorem: a concrete run that visits
only the domain root stays within the budget and at depth 0. -/
theorem phase4_budget_depth_bound_witness :
    (phase4_result envW4 (strL "d") .nhi 3).processed.length ≤ 3 ∧
      ((strL "d", 0) : Str × Nat).2 ≤ 5 :=
  have h1 : phase4_result envW4 (strL "d") .nhi 3
      = phase4_loop envW4 (strL "d") (search_terms_of .nhi)
          (subpage_keywords_of .nhi) .nhi 3 [] 1
          { state_after_phase3 envW4 (strL "d") .nhi 3 with
            seen_urls := strL "d" ::
              (state_after_phase3 envW4 (strL "d") .nhi 3).seen_urls }
          ([] ++ [(strL "d", 0)]) [] := by
    unfold phase4_result
    exact phase4_loop_eq_fail _ _ _ _ _ _ _ _ _ _ _ ⟨-100, 0, strL "d"⟩ []
      (by decide) (by decide) (by decide) rfl
  have h2 : phase4_loop envW4 (strL "d") (search_terms_of .nhi)
      (subpage_keywords_of .nhi) .nhi 3 [] 1
      { state_after_phase3 envW4 (strL "d") .nhi 3 with
        seen_urls := strL "d" ::
          (state_after_phase3 envW4 (strL "d") .nhi 3).seen_urls }
      ([] ++ [(strL "d", 0)]) []
      = ⟨{ state_after_phase3 envW4 (strL "d") .nhi 3 with
            seen_urls := strL "d" ::
              (state_after_phase3 envW4 (strL "d") .nhi 3).seen_urls },
          [] ++ [(strL "d", 0)], []⟩ :=
    phase4_loop_eq_none _ _ _ _ _ _ _ _ _ _ _ (by decide) rfl
  ⟨(phase4_budget_depth_bound envW4 (strL "d") .nhi 3).1,
   (phase4_budget_depth_bound envW4 (strL "d") .nhi 3).2.1 (strL "d", 0)
     (by rw [h1, h2]; simp)⟩

/-- `strLtB` is transitive. -/
theorem strLtB_trans : ∀ a b c : Str, strLtB a b = true → strLtB b c = true →
    strLtB a c = true := by
  intro a
  induction a with
  | nil =>
    intro b c hab hbc
    cases b with
    | nil => simp [strLtB] at hab
    | cons y ys =>
      cases c with
      | nil => simp [strLtB] at hbc
      | cons z zs => simp [strLtB]
  | cons x xs ih =>
    intro b c hab hbc
    cases b with
    | nil => simp [strLtB] at hab
    | cons y ys =>
      cases c with
      | nil => simp [strLtB] at hbc
      | cons z zs =>
        simp only [strLtB, Bool.or_eq_true, Bool.and_eq_true, decide_eq_true_iff,
          beq_iff_eq] at hab hbc ⊢
        rcases hab with h1 | ⟨he1, h2⟩ <;> rcases hbc with g1 | ⟨ge1, g2⟩
        · exact Or.inl (lt_trans h1 g1)
        · exact Or.inl (lt_of_lt_of_le h1 (le_of_eq ge1))
        · exact Or.inl (lt_of_le_of_lt (le_of_eq he1) g1)
        · exact Or.inr ⟨he1.trans ge1, ih ys zs h2 g2⟩

/-- `strLtB` is a trichotomy. -/
theorem strLtB_total : ∀ a b : Str, strLtB a b = true ∨ a = b ∨ strLtB b a = true := by
  intro a
  induction a with
  | nil =>
    intro b
    cases b with
    | nil => exact Or.inr (Or.inl rfl)
    | cons y ys => exact Or.inl (by simp [strLtB])
  | cons x xs ih =>
    intro b
    cases b with
    | nil => exact Or.inr (Or.inr (by simp [strLtB]))
    | cons y ys =>
      rcases lt_trichotomy x y with h | h | h
      · exact Or.inl (by simp [strLtB, h])
      · subst h
        rcases ih ys with h' | h' | h'
        · exact Or.inl (by simp [strLtB, h'])
        · subst h'
          exact Or.inr (Or.inl rfl)
        · exact Or.inr (Or.inr (by simp [strLtB, h']))
      · exact Or.inr (Or.inr (by simp [strLtB, h]))

/-- `entryLe` is reflexive. -/
theorem entryLe_refl (a : P4Entry) : entryLe a a = true := by
  simp [entryLe]

/-- `entryLe` is total. -/
theorem entryLe_total (a b : P4Entry) : entryLe a b = true ∨ entryLe b a = true := by
  simp only [entryLe, Bool.or_eq_true, Bool.and_eq_true, decide_eq_true_iff,
    beq_iff_eq]
  rcases lt_trichotomy a.negPri b.negPri with h | h | h
  · exact Or.inl (Or.inl h)
  · rcases lt_trichotomy a.depth b.depth with h2 | h2 | h2
    · exact Or.inl (Or.inr ⟨h, Or.inl h2⟩)
    · rcases strLtB_total a.url b.url with h3 | h3 | h3
      · exact Or.inl (Or.inr ⟨h, Or.inr ⟨h2, Or.inl h3⟩⟩)
      · exact Or.inl (Or.inr ⟨h, Or.inr ⟨h2, Or.inr h3⟩⟩)
      · exact Or.inr (Or.inr ⟨h.symm, Or.inr ⟨h2.symm, Or.inl h3⟩⟩)
    · exact Or.inr (Or.inr ⟨h.symm, Or.inl h2⟩)
  · exact Or.inr (Or.inl h)

/-- `entryLe` is transitive. -/
theorem entryLe_trans {a b c : P4Entry} (hab : entryLe a b = true)
    (hbc : entryLe b c = true) : entryLe a c = true := by
  simp only [entryLe, Bool.or_eq_true, Bool.and_eq_true, decide_eq_true_iff,
    beq_iff_eq] at hab hbc ⊢
  rcases hab with h1 | ⟨he1, hr1⟩
  · rcases hbc with g1 | ⟨ge1, _⟩
    · exact Or.inl (lt_trans h1 g1)
    · exact Or.inl (lt_of_lt_of_le h1 (le_of_eq ge1))
  · rcases hbc with g1 | ⟨ge1, gr1⟩
    · exact Or.inl (lt_of_le_of_lt (le_of_eq he1) g1)
    · refine Or.inr ⟨he1.trans ge1, ?_⟩
      rcases hr1 with h2 | ⟨he2, hr2⟩
      · rcases gr1 with g2 | ⟨ge2, _⟩
        · exact Or.inl (lt_trans h2 g2)
        · exact Or.inl (lt_of_lt_of_le h2 (le_of_eq ge2))
      · rcases gr1 with g2 | ⟨ge2, gr2⟩
        · exact Or.inl (lt_of_le_of_lt (le_of_eq he2) g2)
        · refine Or.inr ⟨he2.trans ge2, ?_⟩
          rcases hr2 with h3 | h3
          · rcases gr2 with g3 | g3
            · exact Or.inl (strLtB_trans _ _ _ h3 g3)
            · exact Or.inl (by rw [← g3]; exact h3)
          · rcases gr2 with g3 | g3
            · exact Or.inl (by rw [h3]; exact g3)
            · exact Or.inr (h3.trans g3)

/-- The selected entry of `selMin` is minimal under `entryLe`. -/
theorem selMin_min : ∀ (l : List P4Entry) (a : P4Entry),
    ∀ x ∈ a :: l, entryLe (selMin a l).1 x = true := by
  intro l
  induction l with
  | nil =>
    intro a x hx
    rcases List.mem_singleton.mp hx with rfl
    exact entryLe_refl _
  | cons y ys ih =>
    intro a x hx
    simp only [selMin]
    split_ifs with hay
    · rcases List.mem_cons.mp hx with heq | hx'
      · rw [heq]
        exact ih a a (List.mem_cons_self _ _)
      · rcases List.mem_cons.mp hx' with heq | hx''
        · rw [heq]
          exact entryLe_trans (ih a a (List.mem_cons_self _ _)) hay
        · exact ih a x (List.mem_cons_of_mem _ hx'')
    · have hya : entryLe y a = true := by
        rcases entryLe_total a y with h | h
        · exact absurd h hay
        · exact h
      rcases List.mem_cons.mp hx with heq | hx'
      · rw [heq]
        exact entryLe_trans (ih y y (List.mem_cons_self _ _)) hya
      · rcases List.mem_cons.mp hx' with heq | hx''
        · rw [heq]
          exact ih y y (List.mem_cons_self _ _)
        · exact ih y x (List.mem_cons_of_mem _ hx'')

/-- `selMin` permutes its input. -/
theorem selMin_perm : ∀ (l : List P4Entry) (a : P4Entry),
    ((selMin a l).1 :: (selMin a l).2).Perm (a :: l) := by
  intro l
  induction l with
  | nil => intro a; exact List.Perm.refl _
  | cons y ys ih =>
    intro a
    simp only [selMin]
    split_ifs with hay
    · exact (List.Perm.swap y _ _).trans (((ih a).cons y).trans (List.Perm.swap a y ys))
    · exact (List.Perm.swap a _ _).trans ((ih y).cons a)

/-- C6 (amended): the pending-queue pop of Phase 4 returns an entry
minimal under Python's tuple order on `(negated priority, depth, URL)`:
highest navigation relevance first, ties broken by smaller depth and
then by lexicographically smaller URL (by code point) — not by FIFO
insertion order.  The popped entry is removed from the queue (the
result is a permutation witness). -/
theorem pop_order_amended (pq : List P4Entry) (e : P4Entry)
    (rest : List P4Entry) (hpop : popMin pq = some (e, rest)) :
    (∀ x ∈ pq, e.negPri ≤ x.negPri) ∧
    (∀ x ∈ pq, entryLe e x = true) ∧
    (e :: rest).Perm pq := by
  cases pq with
  | nil => cases hpop
  | cons a l =>
    simp only [popMin, Option.some.injEq] at hpop
    have he : e = (selMin a l).1 := by rw [hpop]
    have hrest : rest = (selMin a l).2 := by rw [hpop]
    subst he
    subst hrest
    refine ⟨?_, fun x hx => selMin_min l a x hx, selMin_perm l a⟩
    intro x hx
    have h := selMin_min l a x hx
    simp only [entryLe, Bool.or_eq_true, Bool.and_eq_true, decide_eq_true_iff] at h
    rcases h with h | ⟨heq, _⟩
    · exact le_of_lt h
    · exact le_of_eq heq

/-- Witness for the pop-order theorem: the popped entry of a concrete
queue has the least negated priority (highest relevance). -/
theorem pop_order_amended_witness :
    (P4Entry.mk (-10) 1 (strL "b")).negPri ≤ (P4Entry.mk (-5) 2 (strL "a")).negPri :=
  (pop_order_amended [⟨-10, 1, strL "b"⟩, ⟨-5, 2, strL "a"⟩] ⟨-10, 1, strL "b"⟩
    [⟨-5, 2, strL "a"⟩] (by decide)).1 ⟨-5, 2, strL "a"⟩ (by decide)

/-- C6 (counterexample to the claim as stated): in a concrete Phase 4
run, the root page pushes two entries with equal priority and equal
depth in insertion order `zd`, `ad`; the loop then visits `ad` before
`zd`, because ties are broken by Python's tuple comparison on the URL
string, not by FIFO insertion order. -/
theorem pop_order_counterexample :
    (phase4_result envC6 (strL "d") .nhi 10).pushed
        = [⟨-10, 1, strL "zd"⟩, ⟨-10, 1, strL "ad"⟩] ∧
    (phase4_result envC6 (strL "d") .nhi 10).processed
        = [(strL "d", 0), (strL "ad", 1), (strL "zd", 1)] ∧
    (find_relevant_subpages envC6.url pageD6 (strL "d") (strL "d")
        (subpage_keywords_of .nhi)).map (fun sp => sp.url)
        = [strL "zd", strL "ad"] := by
  have hs3 : state_after_phase3 envC6 (strL "d") .nhi 10 = st3C6 := by decide
  have h0 : phase4_result envC6 (strL "d") .nhi 10
      = phase4_loop envC6 (strL "d") (search_terms_of .nhi)
          (subpage_keywords_of .nhi) .nhi 10 [⟨-100, 0, strL "d"⟩] 0 st3C6 [] [] := by
    unfold phase4_result
    rw [hs3]
  have h1 := (phase4_loop_eq_page envC6 (strL "d") (search_terms_of .nhi)
      (subpage_keywords_of .nhi) .nhi 10 [⟨-100, 0, strL "d"⟩] 0 st3C6 [] []
      ⟨-100, 0, strL "d"⟩ [] pageD6 stdC6 newsC6
      (by decide) (by decide) (by decide) (by decide) (by decide) (by decide)).trans
    (if_neg (by decide))
  have h2 := (phase4_loop_eq_page envC6 (strL "d") (search_terms_of .nhi)
      (subpage_keywords_of .nhi) .nhi 10 ([] ++ newsC6) (0 + 1) stdC6
      ([] ++ [(strL "d", 0)]) ([] ++ newsC6)
      ⟨-10, 1, strL "ad"⟩ [⟨-10, 1, strL "zd"⟩] ([] : Page) stadC6 []
      (by decide) (by decide) (by decide) (by decide) (by decide) (by decide)).trans
    (if_neg (by decide))
  have h3 := (phase4_loop_eq_page envC6 (strL "d") (search_terms_of .nhi)
      (subpage_keywords_of .nhi) .nhi 10 ([⟨-10, 1, strL "zd"⟩] ++ []) (0 + 1 + 1)
      stadC6 ([] ++ [(strL "d", 0)] ++ [(strL "ad", 1)]) ([] ++ newsC6 ++ [])
      ⟨-10, 1, strL "zd"⟩ [] ([] : Page) stzdC6 []
      (by decide) (by decide) (by decide) (by decide) (by decide) (by decide)).trans
    (if_neg (by decide))
  have h4 := phase4_loop_eq_none envC6 (strL "d") (search_terms_of .nhi)
      (subpage_keywords_of .nhi) .nhi 10 ([] ++ []) (0 + 1 + 1 + 1) stzdC6
      ([] ++ [(strL "d", 0)] ++ [(strL "ad", 1)] ++ [(strL "zd", 1)])
      ([] ++ newsC6 ++ [] ++ []) (by decide) (by decide)
  have hrun := h0.trans (h1.trans (h2.trans (h3.trans h4)))
  rw [hrun]
  refine ⟨by decide, by decide, by decide⟩
